import Mathlib

/-!
# PTY session launcher: `termux.c` and `termux-core.cpp`

A shallow embedding of the two JNI source files of the `expo-termux` package.

* Namespace `TermuxC` holds the functions of `termux.c`.
* Namespace `TermuxCore` holds the functions of `termux-core.cpp`.

Conventions of the embedding.

* A C `int` / `jint` is an `Int`; arithmetic that can overflow is wrapped with `wrap32`,
  a conversion to `unsigned short` is `toUShort`.
* A C string is the list of its characters (`CStr`), a Java reference that may be `null` is an
  `Option`.
* The part of the operating system the code talks to is a process state `Proc` (open descriptors,
  window sizes of the PTY masters, environment, working directory, pending Java exception, error
  log).  What the kernel answers to a call that the process state does not determine (does
  `fork` succeed, which descriptor does `open` return, ...) is read from an `Oracle`.
* `fork` is followed on both sides: with `Oracle.fork = 0` the model runs the child branch on a
  copy of the state, otherwise the parent branch.
* Heap allocation (`malloc`, `strdup`) is assumed to succeed; freshly allocated arrays hold
  arbitrary slots, supplied by a `heap` function.
* Of the log only the `LOGE` lines are kept (their format strings).  The `LOGI` / `LOGD` lines,
  the output of `perror`, the terminal attribute calls (`tcgetattr`, `tcsetattr`) and the signal
  mask calls (`sigfillset`, `sigprocmask`) do not touch the modelled state and are left out.
* The platform is Android: the wait macros, `putenv` and `atoi` are those of bionic.
-/

namespace Termux

/-! ## Machine integers and strings -/

/-- C string: the characters before the terminating NUL. -/
abbrev CStr := List Char

/-- Two-complement wrap-around of a 32-bit signed `int` result. -/
def wrap32 (x : Int) : Int := (x + 2147483648) % 4294967296 - 2147483648

/-- Conversion of an `int` to `unsigned short` (16 bits). -/
def toUShort (x : Int) : Int := x % 65536

/-! ## Wait statuses

The macros of `<sys/wait.h>` are those of Android bionic:

```
#define WEXITSTATUS(s) (((s) & 0xff00) >> 8)
#define WTERMSIG(s)    ((s) & 0x7f)
#define WIFEXITED(s)   (WTERMSIG(s) == 0)
#define WIFSIGNALED(s) (WTERMSIG((s)+1) >= 2)
```

On an `Int`, `s & 0x7f` is `s % 128` and `(s & 0xff00) >> 8` is `(s / 256) % 256`
(floor division and non-negative remainder, as in two-complement).
-/

/-- `WTERMSIG(status)`: the low seven bits. -/
def WTERMSIG (status : Int) : Int := status % 128

/-- `WEXITSTATUS(status)`: bits 8 to 15. -/
def WEXITSTATUS (status : Int) : Int := (status / 256) % 256

/-- `WIFEXITED(status)`. -/
def WIFEXITED (status : Int) : Bool := WTERMSIG status == 0

/-- `WIFSIGNALED(status)`. -/
def WIFSIGNALED (status : Int) : Bool := decide (WTERMSIG (status + 1) ≥ 2)

/-- How a process ended, as the kernel records it. -/
inductive Termination where
  /-- The process called `exit(code)`. -/
  | exited (code : Nat)
  /-- The process was killed by signal `sig`; `core` tells whether it dumped core. -/
  | signaled (sig : Nat) (core : Bool)
deriving DecidableEq, Repr

/-- Raw status word the Linux kernel hands to `waitpid`: `(code & 0xff) << 8` for an exit,
`sig | 0x80` or `sig` for a death by signal. -/
def Termination.status : Termination → Int
  | .exited code => ((code % 256 : Nat) : Int) * 256
  | .signaled sig core => ((sig % 128 : Nat) : Int) + (if core then 128 else 0)

/-- Normalized exit status of the specification: the exit code, or minus the signal number. -/
def Termination.normalized : Termination → Int
  | .exited code => (code : Int)
  | .signaled sig _ => -(sig : Int)

/-- Outcome of `waitpid(pid, &status, 0)`. -/
inductive WaitpidResult where
  /-- Success: returns the pid and stores the raw status word. -/
  | reaped (pid : Int) (status : Int)
  /-- Failure (`ECHILD`, ...): returns `-1` and leaves `status` untouched. -/
  | failed
deriving DecidableEq, Repr

/-- Return value of `waitpid`. -/
def WaitpidResult.ret : WaitpidResult → Int
  | .reaped pid _ => pid
  | .failed => -1

/-- Content of the local `int status` after the call; `uninit` is the indeterminate value the
variable held before. -/
def WaitpidResult.store (w : WaitpidResult) (uninit : Int) : Int :=
  match w with
  | .reaped _ status => status
  | .failed => uninit

namespace TermuxC

/-- `Java_com_termux_terminal_JNI_waitFor` of `termux.c`. -/
def Java_com_termux_terminal_JNI_waitFor (w : WaitpidResult) (uninit : Int) : Int :=
  let status := w.store uninit
  if w.ret < 0 then
    -1
  else if WIFEXITED status then
    WEXITSTATUS status
  else if WIFSIGNALED status then
    -WTERMSIG status
  else
    -1

end TermuxC

namespace TermuxCore

/-- `Java_expo_modules_termuxcore_TermuxSession_waitFor` of `termux-core.cpp`: the return value
of `waitpid` is not looked at. -/
def Java_expo_modules_termuxcore_TermuxSession_waitFor (w : WaitpidResult) (uninit : Int) : Int :=
  let status := w.store uninit
  if WIFEXITED status then
    WEXITSTATUS status
  else if WIFSIGNALED status then
    -WTERMSIG status
  else
    0

end TermuxCore

/-- A termination whose status word the wait macros decode unambiguously: an exit code of
0 to 255, or a signal number of 1 to 126. -/
def Termination.InRange : Termination → Prop
  | .exited code => code ≤ 255
  | .signaled sig _ => 1 ≤ sig ∧ sig ≤ 126

instance (t : Termination) : Decidable t.InRange := by
  cases t <;> unfold Termination.InRange <;> infer_instance

/-- Highest signal number of the Linux kernel on the ABIs Android supports (`SIGRTMAX`, with
`_NSIG = 65`). -/
def SIGRTMAX : Nat := 64

/-- A termination the kernel can record: an exit code of 0 to 255 (`exit` keeps the low eight
bits), or a death by one of the signals 1 to `SIGRTMAX`. -/
def Termination.Real : Termination → Prop
  | .exited code => code ≤ 255
  | .signaled sig _ => 1 ≤ sig ∧ sig ≤ SIGRTMAX

instance (t : Termination) : Decidable t.Real := by
  cases t <;> unfold Termination.Real <;> infer_instance

/-- A raw status word that a successful `waitpid(pid, &status, 0)` delivers: with options 0 the
call returns only for a terminated child, so the word is that of a real termination. -/
def Delivered (status : Int) : Prop := ∃ t : Termination, t.Real ∧ status = t.status

/-! ## Process state and system calls -/

/-- The fields of `struct winsize`; each is an `unsigned short`. -/
structure Winsize where
  ws_row : Int
  ws_col : Int
  ws_xpixel : Int
  ws_ypixel : Int
deriving DecidableEq, Repr

/-- State of one process, as far as the two source files read or change it. -/
structure Proc where
  /-- The open file descriptors. -/
  fds : List Int
  /-- Window size of each open descriptor that is a PTY master. -/
  ttys : List (Int × Winsize)
  /-- The environment (`environ`), in order. -/
  environ : List CStr
  /-- The working directory. -/
  cwd : CStr
  /-- The Java exception pending in the calling thread, if any. -/
  exception : Option String
  /-- The error lines written with `LOGE`, oldest first. -/
  errors : List String
deriving DecidableEq, Repr

/-- Answers of the kernel and of the Java runtime that the process state does not determine. -/
structure Oracle where
  /-- Result of `posix_openpt(...)` / `open("/dev/ptmx", ...)`: a descriptor, or negative. -/
  ptmx : Int
  /-- Result of `grantpt(ptm)`. -/
  grantpt : Int
  /-- Result of `unlockpt(ptm)`. -/
  unlockpt : Int
  /-- Slave device name from `ptsname` / `ptsname_r`; `none` when the call fails. -/
  ptsname : Option CStr
  /-- Result of `fork()`: negative on failure, 0 in the child, the child pid in the parent. -/
  fork : Int
  /-- Result of `setsid()`. -/
  setsid : Int
  /-- Result of `open(slave, O_RDWR)` in the child. -/
  pts : Int
  /-- Result of `ioctl(pts, TIOCSCTTY, 0)`. -/
  tiocsctty : Int
  /-- Result of `dup2(pts, 0)`. -/
  dup2_stdin : Int
  /-- Result of `dup2(pts, 1)`. -/
  dup2_stdout : Int
  /-- Result of `dup2(pts, 2)`. -/
  dup2_stderr : Int
  /-- Descriptor behind the `DIR*` of `opendir("/proc/self/fd")`; `none` when it returns NULL. -/
  opendir : Option Int
  /-- The `d_name` of the entries `readdir` yields, in order. -/
  dirEntries : List CStr
  /-- Result of `chdir(cwd)`. -/
  chdir : Int
  /-- Whether `execve` / `execvp` succeeds (it then does not return). -/
  exec : Bool
  /-- Whether `GetPrimitiveArrayCritical` returns a non-null pointer. -/
  arrayCritical : Bool
deriving Repr

/-- How a call into the native code ends. -/
inductive Outcome (α : Type) where
  /-- The function returned `ret` to its caller, in a process with state `s`. -/
  | returned (ret : α) (s : Proc)
  /-- The process called `exit(code)` or `_exit(code)`. -/
  | exited (code : Int) (s : Proc)
  /-- The process image was replaced: `path` runs with argument vector `argv` (`none` is a NULL
  `argv`) in a process with state `s`. -/
  | execed (path : CStr) (argv : Option (List CStr)) (s : Proc)
deriving DecidableEq, Repr

/-- `exit(code)` as the parent sees it through `waitpid`: only the low eight bits survive. -/
def exitTermination (code : Int) : Termination := .exited (code % 256).toNat

/-- `LOGE(...)`: append the format string to the error log. -/
def LOGE (message : String) (s : Proc) : Proc :=
  { s with errors := s.errors ++ [message] }

/-- `throw_runtime_exception` (the same in both files): raise `java.lang.RuntimeException` and
return -1. -/
def throw_runtime_exception (message : String) (s : Proc) : Int × Proc :=
  (-1, { s with exception := some message })

namespace Sys

/-- A call that yields a new descriptor (`open`, `posix_openpt`, `opendir`): when the result
`fd` is not negative it joins the open descriptors. -/
def opened (fd : Int) (s : Proc) : Proc :=
  if fd < 0 then s else { s with fds := fd :: s.fds }

/-- Opening a PTY master: as `opened`, and the descriptor gets a window size of zeros. -/
def openpt (fd : Int) (s : Proc) : Proc :=
  if fd < 0 then s
  else { s with fds := fd :: s.fds, ttys := (fd, ⟨0, 0, 0, 0⟩) :: s.ttys }

/-- The call `close(fd)`: 0 and the descriptor is gone, or -1 (`EBADF`) and nothing changes when
`fd` is not open. -/
def close (fd : Int) (s : Proc) : Int × Proc :=
  if fd ∈ s.fds then
    (0, { s with fds := s.fds.filter (fun x => x ≠ fd),
                 ttys := s.ttys.filter (fun x => x.1 ≠ fd) })
  else (-1, s)

/-- The call `dup2(oldfd, newfd)` with result `r`: on success `newfd` is open. -/
def dup2 (r : Int) (newfd : Int) (s : Proc) : Proc :=
  if r < 0 then s
  else if newfd ∈ s.fds then s
  else { s with fds := newfd :: s.fds }

/-- The call `ioctl(fd, TIOCSWINSZ, &ws)`: installs `ws` on an open PTY master, fails with -1
on any other descriptor. -/
def ioctl_TIOCSWINSZ (fd : Int) (ws : Winsize) (s : Proc) : Int × Proc :=
  if fd ∈ s.fds ∧ (s.ttys.lookup fd).isSome then
    (0, { s with ttys := (fd, ws) :: s.ttys.filter (fun x => x.1 ≠ fd) })
  else (-1, s)

/-- The call `ioctl(fd, TIOCGWINSZ, &ws)`: reads the window size back. -/
def ioctl_TIOCGWINSZ (fd : Int) (s : Proc) : Option Winsize :=
  if fd ∈ s.fds then s.ttys.lookup fd else none

/-- The call `clearenv()`. -/
def clearenv (s : Proc) : Proc := { s with environ := [] }

/-- Whether the environment entry `e` defines the variable `name`: it starts with `name=`. -/
def definesVar (name : CStr) (e : CStr) : Bool := (name ++ ['=']).isPrefixOf e

/-- Put `str` in the slot of the first entry that defines `name` and drop the later ones. -/
def replaceVar (name str : CStr) : List CStr → List CStr
  | [] => []
  | e :: rest =>
    if definesVar name e then str :: rest.filter (fun x => !definesVar name x)
    else e :: replaceVar name str rest

/-- The name of an entry `NAME=value`: the characters before the first `=`. -/
def envName (str : CStr) : CStr := str.takeWhile (fun c => c ≠ '=')

/-- The call `putenv(str)` of bionic: `EINVAL` when `str` has no `=` or starts with it; else the
string takes the place of the entries that define the same name, or is appended. -/
def putenv (str : CStr) (s : Proc) : Int × Proc :=
  let name := envName str
  if name = [] ∨ '=' ∉ str then (-1, s)
  else if s.environ.any (definesVar name) then
    (0, { s with environ := replaceVar name str s.environ })
  else (0, { s with environ := s.environ ++ [str] })

/-- The call `chdir(path)` with result `r`. -/
def chdir (r : Int) (path : CStr) (s : Proc) : Proc :=
  if r = 0 then { s with cwd := path } else s

end Sys

/-! ## libc: `atoi` and the names in `/proc/self/fd` -/

/-- The C `isspace` in the C locale. -/
def isspace (c : Char) : Bool :=
  c = ' ' || c = '\t' || c = '\n' || c = '\x0b' || c = '\x0c' || c = '\r'

/-- Accumulate leading decimal digits, stop at the first other character. -/
def strtolDigits : Int → List Char → Int
  | acc, [] => acc
  | acc, c :: rest =>
    if c.isDigit then strtolDigits (acc * 10 + ((c.toNat : Int) - 48)) rest else acc

/-- The C `atoi`: skip white space, read an optional sign and the leading digits, convert to
`int`.  (Saturation of the underlying `strtol` at 64 bits is left out.) -/
def atoi (str : CStr) : Int :=
  let str := str.dropWhile isspace
  let body := if str.head? = some '-' ∨ str.head? = some '+' then str.tail else str
  let v := strtolDigits 0 body
  wrap32 (if str.head? = some '-' then -v else v)

/-- Name of the entry of descriptor `fd` in `/proc/self/fd`: its decimal digits. -/
def fdName (fd : Int) : CStr := Nat.toDigits 10 fd.toNat

/-! ## Arrays of C strings -/

/-- A Java `String` reference; `none` is `null`. -/
abbrev JString := Option CStr

/-- A C array of `char*`; `none` is a NULL slot. -/
abbrev CStrArray := List (Option CStr)

/-- Array of `n` slots from `malloc`: the content is whatever the heap held. -/
def malloc (heap : Nat → Option CStr) (n : Nat) : CStrArray := (List.range n).map heap

/-- The strings of a NULL-terminated vector, read up to the first NULL slot. -/
def untilNull : CStrArray → List CStr
  | some str :: rest => str :: untilNull rest
  | _ => []

/-- The loop `for (i = 0; i < n; i++) arr[i + off] = <copy of elems[i]>`, entered with
`i + off = idx`; a `null` element stores NULL. -/
def fill : List JString → Nat → CStrArray → CStrArray
  | [], _, arr => arr
  | e :: rest, idx, arr => fill rest (idx + 1) (arr.set idx e)

/-- The same loop with the check `if (!utf8) return throw_runtime_exception(...)`: `none` when
an element converts to NULL. -/
def fillChecked : List JString → Nat → CStrArray → Option CStrArray
  | [], _, arr => some arr
  | none :: _, _, _ => none
  | some str :: rest, idx, arr => fillChecked rest (idx + 1) (arr.set idx (some str))

/-- Window size built from the four `jint` arguments: the products are `int` products, every
field is converted to `unsigned short`. -/
def mkWinsize (rows cols cell_width cell_height : Int) : Winsize :=
  { ws_row := toUShort rows
    ws_col := toUShort cols
    ws_xpixel := toUShort (wrap32 (cols * cell_width))
    ws_ypixel := toUShort (wrap32 (rows * cell_height)) }

/-- Continue after a call that may not return: `k` runs on the returned value and state. -/
def Outcome.andThen {α β : Type} (x : Outcome α) (k : α → Proc → Outcome β) : Outcome β :=
  match x with
  | .returned ret s => k ret s
  | .exited code s => .exited code s
  | .execed path argv s => .execed path argv s

/-- The process state an outcome ends in. -/
def Outcome.state {α : Type} : Outcome α → Proc
  | .returned _ s => s
  | .exited _ s => s
  | .execed _ _ s => s

/-! ## `termux.c` -/

namespace TermuxC

/-- Child branch of `Java_com_termux_terminal_JNI_createSubprocess` (`pid == 0`, lines 114 to
159 of `termux.c`). -/
def createSubprocess_child {α : Type} (o : Oracle) (s : Proc) (cmdStr cwdStr : CStr)
    (argv envp : CStrArray) : Outcome α :=
  if o.setsid < 0 then
    .exited 1 (LOGE "setsid failed: %s" s)
  else
    let pts := o.pts
    let s := Sys.opened pts s
    if pts < 0 then
      .exited 1 (LOGE "Failed to open PTY slave: %s" s)
    else if o.tiocsctty < 0 then
      .exited 1 (LOGE "Failed to set controlling terminal: %s" s)
    else
      let s := Sys.dup2 o.dup2_stdin 0 s
      if o.dup2_stdin < 0 then
        .exited 1 (LOGE "Failed to redirect stdio: %s" s)
      else
        let s := Sys.dup2 o.dup2_stdout 1 s
        if o.dup2_stdout < 0 then
          .exited 1 (LOGE "Failed to redirect stdio: %s" s)
        else
          let s := Sys.dup2 o.dup2_stderr 2 s
          if o.dup2_stderr < 0 then
            .exited 1 (LOGE "Failed to redirect stdio: %s" s)
          else
            let s := (Sys.close pts s).2
            let s := if o.chdir ≠ 0 then LOGE "Failed to change directory to %s: %s" s
                     else Sys.chdir o.chdir cwdStr s
            if o.exec then
              .execed cmdStr (some (untilNull argv)) { s with environ := untilNull envp }
            else
              .exited 1 (LOGE "execve failed: %s" s)

/-- `Java_com_termux_terminal_JNI_createSubprocess` of `termux.c`.  The elements of `args` and
`envVars` are non-null strings (the code converts them unchecked).  The result carries the
returned `jint` and the content of `processIdArray`. -/
def Java_com_termux_terminal_JNI_createSubprocess (o : Oracle) (heap : Nat → Nat → Option CStr)
    (s : Proc) (cmd cwd : CStr) (args envVars : List CStr) (processIdArray : List Int)
    (rows cols cellWidth cellHeight : Int) : Outcome (Int × List Int) :=
  let ptm := o.ptmx
  let s := Sys.openpt ptm s
  if ptm < 0 then
    let r := throw_runtime_exception "Failed to create PTY master"
      (LOGE "Failed to create PTY master: %s" s)
    .returned (r.1, processIdArray) r.2
  else if o.grantpt ≠ 0 ∨ o.unlockpt ≠ 0 then
    let s := LOGE "Failed to grant/unlock PTY: %s" s
    let s := (Sys.close ptm s).2
    let r := throw_runtime_exception "Failed to grant/unlock PTY" s
    .returned (r.1, processIdArray) r.2
  else
    match o.ptsname with
    | none =>
      let s := LOGE "Failed to get PTY slave name: %s" s
      let s := (Sys.close ptm s).2
      let r := throw_runtime_exception "Failed to get PTY slave name" s
      .returned (r.1, processIdArray) r.2
    | some _pts_name =>
      let s := (Sys.ioctl_TIOCSWINSZ ptm (mkWinsize rows cols cellWidth cellHeight) s).2
      let argCount := args.length
      let argv := malloc (heap 0) (argCount + 2)
      let argv := argv.set 0 (some cmd)
      let argv := fill (args.map some) 1 argv
      let argv := argv.set (argCount + 1) none
      let envCount := envVars.length
      let envp := malloc (heap 1) (envCount + 1)
      let envp := fill (envVars.map some) 0 envp
      let envp := envp.set envCount none
      let pid := o.fork
      if pid < 0 then
        let s := LOGE "Fork failed: %s" s
        let s := (Sys.close ptm s).2
        let r := throw_runtime_exception "Fork failed" s
        .returned (r.1, processIdArray) r.2
      else if pid = 0 then
        createSubprocess_child o s cmd cwd argv envp
      else
        .returned (ptm, processIdArray.set 0 pid) s

/-- `Java_com_termux_terminal_JNI_setPtyWindowSize` of `termux.c` (returns `void`). -/
def Java_com_termux_terminal_JNI_setPtyWindowSize (s : Proc)
    (fd rows cols cellWidth cellHeight : Int) : Unit × Proc :=
  let r := Sys.ioctl_TIOCSWINSZ fd (mkWinsize rows cols cellWidth cellHeight) s
  if r.1 < 0 then ((), LOGE "Failed to set window size: %s" r.2) else ((), r.2)

/-- `Java_com_termux_terminal_JNI_close` of `termux.c` (returns `void`). -/
def Java_com_termux_terminal_JNI_close (s : Proc) (fd : Int) : Unit × Proc :=
  let r := Sys.close fd s
  if r.1 < 0 then ((), LOGE "Failed to close fd %d: %s" r.2) else ((), r.2)

end TermuxC

/-! ## `termux-core.cpp` -/

namespace TermuxCore

/-- Lines 111 to 120 of `create_subprocess`: scan `/proc/self/fd` and close what is above
stderr, then `closedir`. -/
def closeInheritedFds (o : Oracle) (s : Proc) : Proc :=
  match o.opendir with
  | none => s
  | some self_dir_fd =>
    let s := Sys.opened self_dir_fd s
    let s := o.dirEntries.foldl
      (fun s d_name =>
        let fd := atoi d_name
        if fd > 2 ∧ fd ≠ self_dir_fd then (Sys.close fd s).2 else s) s
    (Sys.close self_dir_fd s).2

/-- Lines 122 to 128 of `create_subprocess`: `clearenv()`, then `putenv` of every entry of
`envp` up to its NULL, when `envp` is not NULL. -/
def replaceEnvironment (envp : Option CStrArray) (s : Proc) : Proc :=
  let s := Sys.clearenv s
  match envp with
  | none => s
  | some envp => (untilNull envp).foldl (fun s str => (Sys.putenv str s).2) s

/-- Child branch of `create_subprocess` (lines 90 to 146 of `termux-core.cpp`).  The results of
`setsid` and of the three `dup2` calls are not tested. -/
def create_subprocess_child {α : Type} (o : Oracle) (s : Proc) (ptm : Int) (cmd cwd : CStr)
    (argv envp : Option CStrArray) : Outcome α :=
  let s := (Sys.close ptm s).2
  let _ := o.setsid
  let pts := o.pts
  let s := Sys.opened pts s
  if pts < 0 then
    .exited (-1) (LOGE "Failed to open pts device: %s" s)
  else
    let s := Sys.dup2 o.dup2_stdin 0 s
    let s := Sys.dup2 o.dup2_stdout 1 s
    let s := Sys.dup2 o.dup2_stderr 2 s
    let s := closeInheritedFds o s
    let s := replaceEnvironment envp s
    let s := Sys.chdir o.chdir cwd s
    if o.exec then
      .execed cmd (argv.map untilNull) s
    else
      .exited 1 s

/-- `create_subprocess` of `termux-core.cpp`.  `procId` is the content of `*pProcessId` on
entry; the result carries the returned `int` and the content of `*pProcessId`. -/
def create_subprocess (o : Oracle) (s : Proc) (cmd cwd : CStr) (argv envp : Option CStrArray)
    (procId : Int) (rows columns cell_width cell_height : Int) : Outcome (Int × Int) :=
  let ptm := o.ptmx
  let s := Sys.openpt ptm s
  if ptm < 0 then
    let r := throw_runtime_exception "Cannot open /dev/ptmx" (LOGE "Cannot open /dev/ptmx" s)
    .returned (r.1, procId) r.2
  else if o.grantpt ≠ 0 ∨ o.unlockpt ≠ 0 ∨ o.ptsname = none then
    let r := throw_runtime_exception "Cannot grantpt()/unlockpt()/ptsname_r() on /dev/ptmx"
      (LOGE "Cannot grantpt()/unlockpt()/ptsname_r() on /dev/ptmx" s)
    .returned (r.1, procId) r.2
  else
    let s := (Sys.ioctl_TIOCSWINSZ ptm (mkWinsize rows columns cell_width cell_height) s).2
    let pid := o.fork
    if pid < 0 then
      let r := throw_runtime_exception "Fork failed" (LOGE "Fork failed" s)
      .returned (r.1, procId) r.2
    else if pid > 0 then
      .returned (ptm, pid) s
    else
      create_subprocess_child o s ptm cmd cwd argv envp

/-- Conversion of a Java `String[]` (possibly `null`) in the first definition of
`createSubprocess`: NULL for an empty or `null` array, else a fresh NULL-terminated copy.  The
outer `none` is the early return after `GetStringUTFChars` gave NULL. -/
def copyArray (heap : Nat → Option CStr) (array : Option (List JString)) :
    Option (Option CStrArray) :=
  let size := match array with
    | some a => a.length
    | none => 0
  if size > 0 then
    match fillChecked (array.getD []) 0 (malloc heap (size + 1)) with
    | none => none
    | some arr => some (some (arr.set size none))
  else some none

/-- `Java_expo_modules_termuxcore_TermuxSession_createSubprocess`, first definition (line 149 of
`termux-core.cpp`).  The result carries the returned `jint` and the content of
`processIdArray`. -/
def Java_expo_modules_termuxcore_TermuxSession_createSubprocess (o : Oracle)
    (heap : Nat → Nat → Option CStr) (s : Proc) (cmd cwd : CStr)
    (args envVars : Option (List JString)) (processIdArray : List Int)
    (rows columns cell_width cell_height : Int) : Outcome (Int × List Int) :=
  match copyArray (heap 0) args with
  | none =>
    let r := throw_runtime_exception "GetStringUTFChars() failed for argv" s
    .returned (r.1, processIdArray) r.2
  | some argv =>
    match copyArray (heap 1) envVars with
    | none =>
      let r := throw_runtime_exception "GetStringUTFChars() failed for env" s
      .returned (r.1, processIdArray) r.2
    | some envp =>
      let procId := 0
      (create_subprocess o s cmd cwd argv envp procId rows columns cell_width cell_height).andThen
        fun r s =>
          let ptm := r.1
          let procId := r.2
          if !o.arrayCritical then
            let e := throw_runtime_exception
              "JNI call GetPrimitiveArrayCritical(processIdArray, &isCopy) failed" s
            .returned (e.1, processIdArray) e.2
          else
            .returned (ptm, processIdArray.set 0 procId) s

/-- `Java_expo_modules_termuxcore_TermuxSession_setPtyWindowSize` of `termux-core.cpp` (returns
`void`). -/
def Java_expo_modules_termuxcore_TermuxSession_setPtyWindowSize (s : Proc)
    (fd rows cols cell_width cell_height : Int) : Unit × Proc :=
  ((), (Sys.ioctl_TIOCSWINSZ fd (mkWinsize rows cols cell_width cell_height) s).2)

/-- `Java_expo_modules_termuxcore_TermuxSession_close` of `termux-core.cpp` (returns `void`). -/
def Java_expo_modules_termuxcore_TermuxSession_close (s : Proc) (fileDescriptor : Int) :
    Unit × Proc :=
  ((), (Sys.close fileDescriptor s).2)

namespace Main

/-- `Java_expo_modules_termuxcore_TermuxSession_createSubprocess`, second definition (line 252
of `termux-core.cpp`, "Main JNI method that Kotlin calls").  `uninit` is the indeterminate
content of the local `int processId`.  The result carries the returned `jint` and the content
of `processIdArray`, which the function never writes. -/
def Java_expo_modules_termuxcore_TermuxSession_createSubprocess (o : Oracle)
    (heap : Nat → Nat → Option CStr) (s : Proc) (cmd cwd : CStr)
    (args envVars : List JString) (processIdArray : List Int)
    (rows columns cellWidth cellHeight : Int) (uninit : Int) : Outcome (Int × List Int) :=
  let argc := args.length
  let argv := malloc (heap 0) (argc + 2)
  let argv := argv.set 0 (some cmd)
  let argv := fill args 1 argv
  let argv := argv.set (argc + 1) none
  let envc := envVars.length
  let envp := malloc (heap 1) (envc + 1)
  let envp := fill envVars 0 envp
  let envp := envp.set envc none
  let processId := uninit
  (create_subprocess o s cmd cwd (some argv) (some envp) processId
      rows columns cellWidth cellHeight).andThen
    fun r s =>
      let result := r.1
      .returned (result, processIdArray) s

end Main

end TermuxCore

/-! ## Observations on outcomes and sample inputs -/

/-- A process with the standard streams and a PTY master on descriptor 5. -/
def procWithPty : Proc :=
  { fds := [0, 1, 2, 5], ttys := [(5, ⟨0, 0, 0, 0⟩)], environ := [], cwd := [],
    exception := none, errors := [] }

/-- An oracle under which every call succeeds: PTY master on 5, child branch of `fork`, slave
on 6, no directory scan. -/
def childOracle : Oracle :=
  { ptmx := 5, grantpt := 0, unlockpt := 0, ptsname := some "/dev/pts/3".toList, fork := 0,
    setsid := 4242, pts := 6, tiocsctty := 0, dup2_stdin := 0, dup2_stdout := 1,
    dup2_stderr := 2, opendir := none, dirEntries := [], chdir := 0, exec := true,
    arrayCritical := true }

/-- The same oracle on the parent side of `fork`: the child has pid 4242. -/
def parentOracle : Oracle := { childOracle with fork := 4242 }

/-- The launcher before the call: standard streams open, no PTY, one ambient variable. -/
def launcher : Proc :=
  { fds := [0, 1, 2], ttys := [], environ := ["HOME=/root".toList], cwd := "/".toList,
    exception := none, errors := [] }

/-- A heap whose fresh slots are all NULL. -/
def zeroHeap : Nat → Nat → Option CStr := fun _ _ => none

/-- The argument vector an outcome hands to `exec`, if the outcome is an `exec`. -/
def Outcome.argv? {α : Type} : Outcome α → Option (Option (List CStr))
  | .execed _ argv _ => some argv
  | _ => none

/-- The environment an outcome hands to the new process image, if the outcome is an `exec`. -/
def Outcome.environ? {α : Type} : Outcome α → Option (List CStr)
  | .execed _ _ s => some s.environ
  | _ => none

/-- PTY allocation succeeds: the master opens, is granted and unlocked, the slave has a name. -/
def Oracle.PtyOk (o : Oracle) : Prop :=
  0 ≤ o.ptmx ∧ o.grantpt = 0 ∧ o.unlockpt = 0 ∧ o.ptsname.isSome = true

instance (o : Oracle) : Decidable o.PtyOk := by unfold Oracle.PtyOk; infer_instance

/-- Every set-up call of the child succeeds. -/
def Oracle.ChildSetupOk (o : Oracle) : Prop :=
  0 ≤ o.setsid ∧ 0 ≤ o.pts ∧ 0 ≤ o.tiocsctty ∧
  0 ≤ o.dup2_stdin ∧ 0 ≤ o.dup2_stdout ∧ 0 ≤ o.dup2_stderr

instance (o : Oracle) : Decidable o.ChildSetupOk := by unfold Oracle.ChildSetupOk; infer_instance

/-- Entries of the form `NAME=value` with a non-empty name, no name twice. -/
def DistinctVars (entries : List CStr) : Prop :=
  (∀ e ∈ entries, '=' ∈ e ∧ Sys.envName e ≠ []) ∧ (entries.map Sys.envName).Nodup

instance (entries : List CStr) : Decidable (DistinctVars entries) := by
  unfold DistinctVars; infer_instance

/-- The value a call returned to its caller, if it returned. -/
def Outcome.ret? {α : Type} : Outcome α → Option α
  | .returned ret _ => some ret
  | _ => none

/-- The argument of `exit` / `_exit`, if the process ended that way. -/
def Outcome.exitCode? {α : Type} : Outcome α → Option Int
  | .exited code _ => some code
  | _ => none

/-- An oracle under which `fork` fails after the PTY master was opened on descriptor 5. -/
def forkFailsOracle : Oracle := { childOracle with fork := -1 }

/-- An oracle for the child in which `setsid` and the three `dup2` calls fail. -/
def setupFailsOracle : Oracle :=
  { childOracle with setsid := -1, dup2_stdin := -1, dup2_stdout := -1, dup2_stderr := -1 }

/-- An oracle for the child in which only `setsid` fails. -/
def setsidFailsOracle : Oracle := { childOracle with setsid := -1 }

/-- An oracle for the child in which only `dup2(pts, 0)` fails. -/
def dup2FailsOracle : Oracle := { childOracle with dup2_stdin := -1 }

/-- State of the child of `create_subprocess` when it reaches the descriptor scan (line 111 of
`termux-core.cpp`): the PTY master is closed, the slave is open and duplicated onto the standard
streams, as far as these calls succeeded. -/
def TermuxCore.beforeScan (o : Oracle) (ptm : Int) (s : Proc) : Proc :=
  Sys.dup2 o.dup2_stderr 2
    (Sys.dup2 o.dup2_stdout 1 (Sys.dup2 o.dup2_stdin 0 (Sys.opened o.pts (Sys.close ptm s).2)))

/-- An oracle for the child whose scan of `/proc/self/fd` runs on descriptor 7 and lists the
descriptors 0 to 4, 6 (the slave) and 7. -/
def scanOracle : Oracle :=
  { childOracle with
    opendir := some 7
    dirEntries := [".".toList, "..".toList, "0".toList, "1".toList, "2".toList, "3".toList,
      "4".toList, "6".toList, "7".toList] }

/-- The child right after `fork`: the launcher had two more files open, on 3 and 4, and the PTY
master is on 5. -/
def forkedChild : Proc :=
  { fds := [5, 0, 1, 2, 3, 4], ttys := [(5, ⟨24, 80, 800, 480⟩)], environ := [],
    cwd := "/".toList, exception := none, errors := [] }

/-! # Theorems -/

theorem WIFEXITED_iff (status : Int) : WIFEXITED status = true ↔ status % 128 = 0 := by
  simp [WIFEXITED, WTERMSIG]

theorem WIFSIGNALED_iff (status : Int) :
    WIFSIGNALED status = true ↔ 2 ≤ (status + 1) % 128 := by
  simp [WIFSIGNALED, WTERMSIG]

theorem status_exited_facts (code : Nat) (hc : code ≤ 255) :
    WIFEXITED (Termination.exited code).status = true ∧
    WEXITSTATUS (Termination.exited code).status = (code : Int) := by
  refine ⟨(WIFEXITED_iff _).2 ?_, ?_⟩
  · simp only [Termination.status]; omega
  · simp only [Termination.status, WEXITSTATUS]; omega

theorem status_signaled_facts (sig : Nat) (core : Bool) (hlo : 1 ≤ sig) (hhi : sig ≤ 126) :
    WIFEXITED (Termination.signaled sig core).status = false ∧
    WIFSIGNALED (Termination.signaled sig core).status = true ∧
    WTERMSIG (Termination.signaled sig core).status = (sig : Int) := by
  refine ⟨?_, (WIFSIGNALED_iff _).2 ?_, ?_⟩
  · rw [← Bool.not_eq_true, WIFEXITED_iff]
    cases core <;> simp only [Termination.status] <;> omega
  · cases core <;> simp only [Termination.status] <;> omega
  · cases core <;> simp only [Termination.status, WTERMSIG] <;> omega

/-- Both `waitFor` functions decode the status word of an exit with code 0 to 255 and of a
death by a signal 1 to 126, with or without core dump, to the normalized status, whatever the
local `status` held before. -/
theorem waitFor_of_inRange (pid uninit : Int) (t : Termination) (hpid : 0 < pid)
    (ht : t.InRange) :
    TermuxC.Java_com_termux_terminal_JNI_waitFor (.reaped pid t.status) uninit = t.normalized ∧
    TermuxCore.Java_expo_modules_termuxcore_TermuxSession_waitFor (.reaped pid t.status) uninit
      = t.normalized := by
  have h1 : ¬ pid < 0 := by omega
  cases t with
  | exited code =>
    obtain ⟨he, hx⟩ := status_exited_facts code ht
    simp [TermuxC.Java_com_termux_terminal_JNI_waitFor,
      TermuxCore.Java_expo_modules_termuxcore_TermuxSession_waitFor, WaitpidResult.store,
      WaitpidResult.ret, Termination.normalized, h1, he, hx]
  | signaled sig core =>
    obtain ⟨he, hs, hx⟩ := status_signaled_facts sig core ht.1 ht.2
    simp [TermuxC.Java_com_termux_terminal_JNI_waitFor,
      TermuxCore.Java_expo_modules_termuxcore_TermuxSession_waitFor, WaitpidResult.store,
      WaitpidResult.ret, Termination.normalized, h1, he, hs, hx]

/-- No delivered status word has its low seven bits equal to 127. -/
theorem delivered_low_bits (status : Int) (hdel : Delivered status) : status % 128 ≠ 127 := by
  obtain ⟨t, hreal, rfl⟩ := hdel
  cases t with
  | exited code =>
    simp only [Termination.status]
    omega
  | signaled sig core =>
    obtain ⟨hlo, hhi⟩ : 1 ≤ sig ∧ sig ≤ 64 := hreal
    cases core <;> simp only [Termination.status] <;> omega

/-- C1: for every raw status word delivered by a successful `waitpid`, if it is the word of a
normal exit with code `c` (`0 ≤ c ≤ 255`) both `waitFor` functions return exactly `c`, and if it
is the word of a death by signal `s` (`1 ≤ s ≤ 127`, with or without core dump) both return
exactly `-s`, whatever the local `status` held before the call. -/
theorem waitFor_delivered (pid uninit status : Int) (hpid : 0 < pid) (hdel : Delivered status) :
    (∀ c : Nat, c ≤ 255 → status = (Termination.exited c).status →
      TermuxC.Java_com_termux_terminal_JNI_waitFor (.reaped pid status) uninit = (c : Int) ∧
      TermuxCore.Java_expo_modules_termuxcore_TermuxSession_waitFor (.reaped pid status) uninit
        = (c : Int)) ∧
    (∀ (s : Nat) (core : Bool), 1 ≤ s → s ≤ 127 →
      status = (Termination.signaled s core).status →
      TermuxC.Java_com_termux_terminal_JNI_waitFor (.reaped pid status) uninit = -(s : Int) ∧
      TermuxCore.Java_expo_modules_termuxcore_TermuxSession_waitFor (.reaped pid status) uninit
        = -(s : Int)) := by
  constructor
  · intro c hc hst
    rw [hst]
    exact waitFor_of_inRange pid uninit (.exited c) hpid hc
  · intro s core hlo hhi hst
    have hbits := delivered_low_bits status hdel
    have hs : s ≤ 126 := by
      by_contra hgt
      have h127 : s = 127 := by omega
      apply hbits
      rw [hst, h127]
      cases core <;> simp only [Termination.status] <;> omega
    rw [hst]
    exact waitFor_of_inRange pid uninit (.signaled s core) hpid ⟨hlo, hs⟩

theorem waitFor_delivered_witness :
    (0 : Int) < 4242 ∧ Delivered 9 ∧ (9 : Int) = (Termination.signaled 9 false).status ∧
    TermuxC.Java_com_termux_terminal_JNI_waitFor (.reaped 4242 9) 0 = -9 ∧
    TermuxCore.Java_expo_modules_termuxcore_TermuxSession_waitFor (.reaped 4242 9) 0 = -9 :=
  ⟨by decide, ⟨.signaled 9 false, by decide, by decide⟩, by decide,
    (waitFor_delivered 4242 0 9 (by decide) ⟨.signaled 9 false, by decide, by decide⟩).2
      9 false (by decide) (by decide) (by decide)⟩

/-- The word 127 is the marker of a stopped child: neither `WIFEXITED` nor `WIFSIGNALED` holds
for it, `termux.c` falls through to -1 and `termux-core.cpp` to 0.  No successful
`waitpid(pid, &status, 0)` delivers it. -/
theorem waitFor_stop_marker :
    ¬ Delivered 127 ∧
    TermuxC.Java_com_termux_terminal_JNI_waitFor (.reaped 4242 127) 0 = -1 ∧
    TermuxCore.Java_expo_modules_termuxcore_TermuxSession_waitFor (.reaped 4242 127) 0 = 0 :=
  ⟨fun h => delivered_low_bits 127 h (by decide), by decide, by decide⟩

/-- C8 (amended): when `waitpid` fails, `waitFor` of `termux.c` returns -1 without reading the
local `status`; -1 differs from every exit code 0 to 255 and from `-s` for every signal `s`
from 2 to 127, and it is the normalized status of a death by signal 1. -/
theorem waitFor_failed_termux_c (uninit : Int) :
    TermuxC.Java_com_termux_terminal_JNI_waitFor .failed uninit = -1 ∧
    (∀ c : Nat, c ≤ 255 →
      TermuxC.Java_com_termux_terminal_JNI_waitFor .failed uninit
        ≠ (Termination.exited c).normalized) ∧
    (∀ (s : Nat) (core : Bool), 2 ≤ s → s ≤ 127 →
      TermuxC.Java_com_termux_terminal_JNI_waitFor .failed uninit
        ≠ (Termination.signaled s core).normalized) ∧
    (∀ core : Bool,
      TermuxC.Java_com_termux_terminal_JNI_waitFor .failed uninit
        = (Termination.signaled 1 core).normalized) := by
  have h : TermuxC.Java_com_termux_terminal_JNI_waitFor .failed uninit = -1 := by
    simp [TermuxC.Java_com_termux_terminal_JNI_waitFor, WaitpidResult.ret]
  refine ⟨h, ?_, ?_, ?_⟩
  · intro c _
    rw [h]; simp only [Termination.normalized]; omega
  · intro s _ h2 _
    rw [h]; simp only [Termination.normalized]; omega
  · intro _
    rw [h]; simp [Termination.normalized]

/-- C8 (counterexample): on a failed `waitpid`, `termux.c` returns what it returns for a child
killed by signal 1, and `termux-core.cpp` returns a value read from the uninitialised `status`:
0 (a clean exit) when it holds 0, 1 when it holds 256. -/
theorem waitFor_failed_not_distinguishable :
    TermuxC.Java_com_termux_terminal_JNI_waitFor .failed 0
      = TermuxC.Java_com_termux_terminal_JNI_waitFor
          (.reaped 4242 (Termination.signaled 1 false).status) 0 ∧
    TermuxC.Java_com_termux_terminal_JNI_waitFor .failed 0
      = (Termination.signaled 1 false).normalized ∧
    TermuxCore.Java_expo_modules_termuxcore_TermuxSession_waitFor .failed 0
      = (Termination.exited 0).normalized ∧
    TermuxCore.Java_expo_modules_termuxcore_TermuxSession_waitFor .failed 0 = 0 ∧
    TermuxCore.Java_expo_modules_termuxcore_TermuxSession_waitFor .failed 256 = 1 := by
  decide

theorem waitFor_failed_termux_c_witness :
    TermuxC.Java_com_termux_terminal_JNI_waitFor .failed 7 ≠ (Termination.exited 0).normalized :=
  (waitFor_failed_termux_c 7).2.1 0 (by decide)

/-! ## Window size -/

theorem mkWinsize_exact (rows cols cw ch : Int) (hr : 0 < rows) (hc : 0 < cols) (hw : 0 < cw)
    (hh : 0 < ch) (hx : cols * cw ≤ 65535) (hy : rows * ch ≤ 65535) :
    mkWinsize rows cols cw ch = ⟨rows, cols, cols * cw, rows * ch⟩ := by
  have h1 : rows ≤ rows * ch := by nlinarith
  have h2 : cols ≤ cols * cw := by nlinarith
  have h3 : 0 < cols * cw := by positivity
  have h4 : 0 < rows * ch := by positivity
  simp only [mkWinsize, toUShort, wrap32]
  generalize cols * cw = p at *
  generalize rows * ch = q at *
  congr 1 <;> omega

theorem mkWinsize_mod (rows cols cw ch : Int) :
    mkWinsize rows cols cw ch
      = ⟨rows % 65536, cols % 65536, (cols * cw) % 65536, (rows * ch) % 65536⟩ := by
  simp only [mkWinsize, toUShort, wrap32]
  generalize cols * cw = p
  generalize rows * ch = q
  congr 1 <;> omega

theorem TIOCGWINSZ_after_TIOCSWINSZ (s : Proc) (fd : Int) (ws : Winsize) (hfd : fd ∈ s.fds)
    (htty : (s.ttys.lookup fd).isSome = true) :
    (Sys.ioctl_TIOCSWINSZ fd ws s).1 = 0 ∧
    Sys.ioctl_TIOCGWINSZ fd (Sys.ioctl_TIOCSWINSZ fd ws s).2 = some ws := by
  simp [Sys.ioctl_TIOCSWINSZ, Sys.ioctl_TIOCGWINSZ, hfd, htty, List.lookup]

/-- C5 (amended): for positive `rows`, `cols`, `cellW`, `cellH` with `cols*cellW ≤ 65535` and
`rows*cellH ≤ 65535`, `setPtyWindowSize` of either file, called on an open PTY master, installs
a window size that reads back as `ws_row = rows`, `ws_col = cols`, `ws_xpixel = cols*cellW` and
`ws_ypixel = rows*cellH`. -/
theorem setPtyWindowSize_readback (s : Proc) (fd rows cols cellW cellH : Int)
    (hr : 0 < rows) (hc : 0 < cols) (hw : 0 < cellW) (hh : 0 < cellH)
    (hx : cols * cellW ≤ 65535) (hy : rows * cellH ≤ 65535)
    (hfd : fd ∈ s.fds) (htty : (s.ttys.lookup fd).isSome = true) :
    Sys.ioctl_TIOCGWINSZ fd
        (TermuxC.Java_com_termux_terminal_JNI_setPtyWindowSize s fd rows cols cellW cellH).2
      = some ⟨rows, cols, cols * cellW, rows * cellH⟩ ∧
    Sys.ioctl_TIOCGWINSZ fd
        (TermuxCore.Java_expo_modules_termuxcore_TermuxSession_setPtyWindowSize
          s fd rows cols cellW cellH).2
      = some ⟨rows, cols, cols * cellW, rows * cellH⟩ := by
  obtain ⟨h0, hget⟩ := TIOCGWINSZ_after_TIOCSWINSZ s fd (mkWinsize rows cols cellW cellH) hfd htty
  rw [mkWinsize_exact rows cols cellW cellH hr hc hw hh hx hy] at h0 hget
  constructor
  · simp only [TermuxC.Java_com_termux_terminal_JNI_setPtyWindowSize,
      mkWinsize_exact rows cols cellW cellH hr hc hw hh hx hy, h0]
    simpa using hget
  · simp only [TermuxCore.Java_expo_modules_termuxcore_TermuxSession_setPtyWindowSize,
      mkWinsize_exact rows cols cellW cellH hr hc hw hh hx hy]
    exact hget

theorem setPtyWindowSize_readback_witness :
    Sys.ioctl_TIOCGWINSZ 5
        (TermuxC.Java_com_termux_terminal_JNI_setPtyWindowSize procWithPty 5 24 80 10 20).2
      = some ⟨24, 80, 80 * 10, 24 * 20⟩ ∧
    Sys.ioctl_TIOCGWINSZ 5
        (TermuxCore.Java_expo_modules_termuxcore_TermuxSession_setPtyWindowSize
          procWithPty 5 24 80 10 20).2
      = some ⟨24, 80, 80 * 10, 24 * 20⟩ :=
  setPtyWindowSize_readback procWithPty 5 24 80 10 20 (by decide) (by decide) (by decide)
    (by decide) (by decide) (by decide) (by decide) (by decide)

/-- C5 (counterexample): with 80 columns of 1000 pixels the product 80000 does not fit the
16-bit field; both files install and read back `ws_xpixel = 14464`. -/
theorem setPtyWindowSize_truncates :
    Sys.ioctl_TIOCGWINSZ 5
        (TermuxC.Java_com_termux_terminal_JNI_setPtyWindowSize procWithPty 5 24 80 1000 20).2
      = some ⟨24, 80, 14464, 480⟩ ∧
    Sys.ioctl_TIOCGWINSZ 5
        (TermuxCore.Java_expo_modules_termuxcore_TermuxSession_setPtyWindowSize
          procWithPty 5 24 80 1000 20).2
      = some ⟨24, 80, 14464, 480⟩ ∧
    (80 : Int) * 1000 ≠ 14464 := by
  decide

/-! ## Closing a descriptor -/

theorem close_not_open (s : Proc) (fd : Int) (h : fd ∉ s.fds) : Sys.close fd s = (-1, s) := by
  simp [Sys.close, h]

theorem not_mem_after_close (s : Proc) (fd : Int) : fd ∉ (Sys.close fd s).2.fds := by
  unfold Sys.close
  split <;> simp_all

/-- C9 (amended): for every descriptor `fd`, after a first call of the close entry point the
underlying `close` of a second call fails with -1 and changes no descriptor; neither entry point
hands that failure to the caller: both return `void` and leave the pending exception as it
was; `termux.c` writes one line to the error log, `termux-core.cpp` leaves the whole state
unchanged. -/
theorem double_close_not_reported (s : Proc) (fd : Int) :
    (Sys.close fd (TermuxC.Java_com_termux_terminal_JNI_close s fd).2).1 = -1 ∧
    (TermuxC.Java_com_termux_terminal_JNI_close
        (TermuxC.Java_com_termux_terminal_JNI_close s fd).2 fd)
      = ((), LOGE "Failed to close fd %d: %s"
              (TermuxC.Java_com_termux_terminal_JNI_close s fd).2) ∧
    (TermuxC.Java_com_termux_terminal_JNI_close
        (TermuxC.Java_com_termux_terminal_JNI_close s fd).2 fd).2.exception = s.exception ∧
    (Sys.close fd (TermuxCore.Java_expo_modules_termuxcore_TermuxSession_close s fd).2).1 = -1 ∧
    (TermuxCore.Java_expo_modules_termuxcore_TermuxSession_close
        (TermuxCore.Java_expo_modules_termuxcore_TermuxSession_close s fd).2 fd)
      = ((), (TermuxCore.Java_expo_modules_termuxcore_TermuxSession_close s fd).2) ∧
    (TermuxCore.Java_expo_modules_termuxcore_TermuxSession_close
        (TermuxCore.Java_expo_modules_termuxcore_TermuxSession_close s fd).2 fd).2.exception
      = s.exception := by
  have hc : ∀ t : Proc, fd ∉ t.fds →
      TermuxC.Java_com_termux_terminal_JNI_close t fd
        = ((), LOGE "Failed to close fd %d: %s" t) := by
    intro t ht
    simp [TermuxC.Java_com_termux_terminal_JNI_close, close_not_open t fd ht]
  have hk : ∀ t : Proc, fd ∉ t.fds →
      TermuxCore.Java_expo_modules_termuxcore_TermuxSession_close t fd = ((), t) := by
    intro t ht
    simp [TermuxCore.Java_expo_modules_termuxcore_TermuxSession_close, close_not_open t fd ht]
  have h1 : fd ∉ (TermuxC.Java_com_termux_terminal_JNI_close s fd).2.fds := by
    by_cases h : fd ∈ s.fds
    · simp [TermuxC.Java_com_termux_terminal_JNI_close, Sys.close, h]
    · simp [hc s h, LOGE, h]
  have h2 : fd ∉ (TermuxCore.Java_expo_modules_termuxcore_TermuxSession_close s fd).2.fds :=
    not_mem_after_close s fd
  have e1 : (TermuxC.Java_com_termux_terminal_JNI_close s fd).2.exception = s.exception := by
    by_cases h : fd ∈ s.fds
    · simp [TermuxC.Java_com_termux_terminal_JNI_close, Sys.close, h]
    · simp [hc s h, LOGE]
  have e2 : (TermuxCore.Java_expo_modules_termuxcore_TermuxSession_close s fd).2.exception
      = s.exception := by
    by_cases h : fd ∈ s.fds
    · simp [TermuxCore.Java_expo_modules_termuxcore_TermuxSession_close, Sys.close, h]
    · simp [hk s h]
  refine ⟨?_, hc _ h1, ?_, ?_, hk _ h2, ?_⟩
  · rw [close_not_open _ fd h1]
  · rw [hc _ h1]; simpa [LOGE] using e1
  · rw [close_not_open _ fd h2]
  · rw [hk _ h2]; exact e2

/-- C9 (counterexample): closing descriptor 5 twice.  The second call of either entry point
returns the same `void` result as the first and raises no exception, although the underlying
`close` failed; in `termux-core.cpp` the second call changes nothing at all. -/
theorem double_close_silent :
    (Sys.close 5 (TermuxC.Java_com_termux_terminal_JNI_close procWithPty 5).2).1 = -1 ∧
    (TermuxC.Java_com_termux_terminal_JNI_close
        (TermuxC.Java_com_termux_terminal_JNI_close procWithPty 5).2 5).1
      = (TermuxC.Java_com_termux_terminal_JNI_close procWithPty 5).1 ∧
    (TermuxC.Java_com_termux_terminal_JNI_close
        (TermuxC.Java_com_termux_terminal_JNI_close procWithPty 5).2 5).2.exception = none ∧
    TermuxCore.Java_expo_modules_termuxcore_TermuxSession_close
        (TermuxCore.Java_expo_modules_termuxcore_TermuxSession_close procWithPty 5).2 5
      = ((), (TermuxCore.Java_expo_modules_termuxcore_TermuxSession_close procWithPty 5).2) ∧
    (TermuxCore.Java_expo_modules_termuxcore_TermuxSession_close
        (TermuxCore.Java_expo_modules_termuxcore_TermuxSession_close procWithPty 5).2 5
      ).2.exception = none := by
  decide

/-! ## Argument and environment vectors -/

theorem fill_cons (elems : List JString) (idx : Nat) (a : Option CStr) (arr : CStrArray) :
    fill elems (idx + 1) (a :: arr) = a :: fill elems idx arr := by
  induction elems generalizing idx arr with
  | nil => rfl
  | cons e rest ih => simp [fill, ih]

theorem fill_zero (elems : List JString) (arr : CStrArray) (h : elems.length ≤ arr.length) :
    fill elems 0 arr = elems ++ arr.drop elems.length := by
  induction elems generalizing arr with
  | nil => simp [fill]
  | cons e rest ih =>
    cases arr with
    | nil => simp at h
    | cons a arr =>
      have h2 : rest.length ≤ arr.length := by simpa using h
      simp [fill, fill_cons, ih arr h2]

theorem set_length_append_singleton {β : Type} (l : List β) (z y : β) :
    (l ++ [z]).set l.length y = l ++ [y] := by
  induction l with
  | nil => rfl
  | cons a l ih => simp [ih]

theorem length_malloc (heap : Nat → Option CStr) (n : Nat) : (malloc heap n).length = n := by
  simp [malloc]

/-- The vector built by "store the command in slot 0, copy the `n` elements to slots 1 to `n`,
store NULL in slot `n + 1`" on a fresh array of `n + 2` slots. -/
theorem argv_with_command (heap : Nat → Option CStr) (cmd : CStr) (elems : List JString) :
    (fill elems 1 ((malloc heap (elems.length + 2)).set 0 (some cmd))).set (elems.length + 1) none
      = some cmd :: elems ++ [none] := by
  have hlen := length_malloc heap (elems.length + 2)
  generalize malloc heap (elems.length + 2) = arr at hlen
  cases arr with
  | nil => simp at hlen
  | cons a arr =>
    have h1 : elems.length ≤ arr.length := by simp at hlen; omega
    have h2 : (arr.drop elems.length).length = 1 := by simp at hlen; simp [hlen]
    obtain ⟨z, hz⟩ := List.length_eq_one.mp h2
    simp only [List.set_cons_zero, fill_cons, fill_zero elems arr h1, hz, List.set_cons_succ,
      set_length_append_singleton, List.cons_append]

/-- The vector built by "copy the `n` elements to slots 0 to `n - 1`, store NULL in slot `n`"
on a fresh array of `n + 1` slots. -/
theorem vector_without_command (heap : Nat → Option CStr) (elems : List JString) :
    (fill elems 0 (malloc heap (elems.length + 1))).set elems.length none = elems ++ [none] := by
  have hlen := length_malloc heap (elems.length + 1)
  generalize malloc heap (elems.length + 1) = arr at hlen
  have h1 : elems.length ≤ arr.length := by omega
  have h2 : (arr.drop elems.length).length = 1 := by simp [hlen]
  obtain ⟨z, hz⟩ := List.length_eq_one.mp h2
  rw [fill_zero elems arr h1, hz, set_length_append_singleton]

theorem untilNull_map_some (l : List CStr) (rest : CStrArray) :
    untilNull (l.map some ++ none :: rest) = l := by
  induction l with
  | nil => rfl
  | cons a l ih => simp [untilNull, ih]

theorem fillChecked_map_some (l : List CStr) (idx : Nat) (arr : CStrArray) :
    fillChecked (l.map some) idx arr = some (fill (l.map some) idx arr) := by
  induction l generalizing idx arr with
  | nil => rfl
  | cons a l ih => simp [fillChecked, fill, ih]

/-! ## The environment of the child -/

theorem takeWhile_append_eq (name rest : CStr) (h : '=' ∉ name) :
    (name ++ '=' :: rest).takeWhile (fun c => c ≠ '=') = name := by
  induction name with
  | nil => simp
  | cons a name ih =>
    have ha : a ≠ '=' := fun e => h (by simp [e])
    have hn : '=' ∉ name := fun e => h (by simp [e])
    simpa [List.takeWhile_cons, ha] using ih hn

theorem envName_no_eq (str : CStr) : '=' ∉ Sys.envName str := by
  intro h
  have := List.mem_takeWhile_imp h
  simp at this

theorem envName_of_definesVar (name e : CStr) (hn : '=' ∉ name)
    (h : Sys.definesVar name e = true) : Sys.envName e = name := by
  rw [Sys.definesVar, List.isPrefixOf_iff_prefix] at h
  obtain ⟨t, rfl⟩ := h
  simp only [List.append_assoc, List.singleton_append, Sys.envName]
  exact takeWhile_append_eq name t hn

theorem putenv_append (str : CStr) (s : Proc) (h1 : '=' ∈ str) (h2 : Sys.envName str ≠ [])
    (h3 : ∀ e ∈ s.environ, Sys.envName e ≠ Sys.envName str) :
    (Sys.putenv str s).2.environ = s.environ ++ [str] := by
  have hany : s.environ.any (Sys.definesVar (Sys.envName str)) = false := by
    rw [List.any_eq_false]
    intro e he hd
    exact h3 e he (envName_of_definesVar _ e (envName_no_eq str) hd)
  simp [Sys.putenv, h1, h2, hany]

theorem putenv_all_distinct (entries : List CStr) (s : Proc)
    (h : DistinctVars (s.environ ++ entries)) :
    (entries.foldl (fun s str => (Sys.putenv str s).2) s).environ = s.environ ++ entries := by
  induction entries generalizing s with
  | nil => simp
  | cons e rest ih =>
    obtain ⟨hwf, hnd⟩ := h
    have he := hwf e (by simp)
    have hfresh : ∀ x ∈ s.environ, Sys.envName x ≠ Sys.envName e := by
      intro x hx heq
      rw [List.map_append, List.nodup_append] at hnd
      exact hnd.2.2 (List.mem_map_of_mem _ hx) (by simp [heq])
    have hstep := putenv_append e s he.1 he.2 hfresh
    rw [List.foldl_cons, ih]
    · rw [hstep]; simp
    · rw [hstep]
      refine ⟨?_, ?_⟩
      · intro x hx; exact hwf x (by simpa using hx)
      · simpa using hnd

theorem replaceVar_subset (name str : CStr) (l : List CStr) :
    ∀ x ∈ Sys.replaceVar name str l, x = str ∨ x ∈ l := by
  induction l with
  | nil => simp [Sys.replaceVar]
  | cons e rest ih =>
    intro x hx
    simp only [Sys.replaceVar] at hx
    split at hx
    · simp only [List.mem_cons, List.mem_filter] at hx
      rcases hx with h | h
      · exact Or.inl h
      · exact Or.inr (by simp [h.1])
    · simp only [List.mem_cons] at hx
      rcases hx with h | h
      · exact Or.inr (by simp [h])
      · rcases ih x h with h | h
        · exact Or.inl h
        · exact Or.inr (by simp [h])

theorem putenv_subset (str : CStr) (s : Proc) :
    ∀ x ∈ (Sys.putenv str s).2.environ, x = str ∨ x ∈ s.environ := by
  intro x hx
  unfold Sys.putenv at hx
  simp only at hx
  split at hx
  · exact Or.inr hx
  · split at hx
    · exact replaceVar_subset _ _ _ x hx
    · simp only [List.mem_append, List.mem_singleton] at hx
      exact hx.symm

theorem putenv_all_subset (entries : List CStr) (s : Proc) :
    ∀ x ∈ (entries.foldl (fun s str => (Sys.putenv str s).2) s).environ,
      x ∈ entries ∨ x ∈ s.environ := by
  induction entries generalizing s with
  | nil => intro x hx; exact Or.inr hx
  | cons e rest ih =>
    intro x hx
    rw [List.foldl_cons] at hx
    rcases ih _ x hx with h | h
    · exact Or.inl (by simp [h])
    · rcases putenv_subset e s x h with h | h
      · exact Or.inl (by simp [h])
      · exact Or.inr h

theorem putenv_environ_congr (str : CStr) (s t : Proc) (h : s.environ = t.environ) :
    (Sys.putenv str s).2.environ = (Sys.putenv str t).2.environ := by
  unfold Sys.putenv
  simp only [h]
  split
  · exact h
  · split
    · rfl
    · simp [h]

theorem putenv_all_environ_congr (entries : List CStr) (s t : Proc)
    (h : s.environ = t.environ) :
    (entries.foldl (fun s str => (Sys.putenv str s).2) s).environ
      = (entries.foldl (fun s str => (Sys.putenv str s).2) t).environ := by
  induction entries generalizing s t with
  | nil => exact h
  | cons e rest ih =>
    rw [List.foldl_cons, List.foldl_cons]
    exact ih _ _ (putenv_environ_congr e s t h)

/-- The environment after `clearenv` and the `putenv` loop depends on `envp` alone. -/
theorem replaceEnvironment_congr (envp : Option CStrArray) (s t : Proc) :
    (TermuxCore.replaceEnvironment envp s).environ
      = (TermuxCore.replaceEnvironment envp t).environ := by
  unfold TermuxCore.replaceEnvironment
  cases envp with
  | none => rfl
  | some envp => exact putenv_all_environ_congr _ _ _ rfl

theorem replaceEnvironment_subset (entries : List CStr) (rest : CStrArray) (s : Proc) :
    ∀ x ∈ (TermuxCore.replaceEnvironment (some (entries.map some ++ none :: rest)) s).environ,
      x ∈ entries := by
  intro x hx
  simp only [TermuxCore.replaceEnvironment, untilNull_map_some] at hx
  rcases putenv_all_subset entries _ x hx with h | h
  · exact h
  · simp [Sys.clearenv] at h

theorem replaceEnvironment_distinct (entries : List CStr) (rest : CStrArray) (s : Proc)
    (h : DistinctVars entries) :
    (TermuxCore.replaceEnvironment (some (entries.map some ++ none :: rest)) s).environ
      = entries := by
  simp only [TermuxCore.replaceEnvironment, untilNull_map_some]
  rw [putenv_all_distinct]
  · simp [Sys.clearenv]
  · simpa [Sys.clearenv] using h

/-! ## Reaching the child branch -/

/-- State of the launcher at the `fork` call: the PTY master is open and carries the initial
window size. -/
theorem termux_c_reaches_child (o : Oracle) (heap : Nat → Nat → Option CStr) (s : Proc)
    (cmd cwd : CStr) (args envVars : List CStr) (pids : List Int) (rows cols cw ch : Int)
    (hpty : o.PtyOk) (hfork : o.fork = 0) :
    TermuxC.Java_com_termux_terminal_JNI_createSubprocess o heap s cmd cwd args envVars pids
        rows cols cw ch
      = TermuxC.createSubprocess_child o
          (Sys.ioctl_TIOCSWINSZ o.ptmx (mkWinsize rows cols cw ch) (Sys.openpt o.ptmx s)).2
          cmd cwd (some cmd :: args.map some ++ [none]) (envVars.map some ++ [none]) := by
  obtain ⟨h1, h2, h3, h4⟩ := hpty
  obtain ⟨name, hname⟩ := Option.isSome_iff_exists.mp h4
  have hv := argv_with_command (heap 0) cmd (args.map some)
  have he := vector_without_command (heap 1) (envVars.map some)
  simp only [List.length_map] at hv he
  have h1n : ¬ o.ptmx < 0 := by omega
  simp only [TermuxC.Java_com_termux_terminal_JNI_createSubprocess, h1n, h2, h3, hname, hfork,
    hv, he]
  simp

theorem termux_c_child_execs {α : Type} (o : Oracle) (s : Proc) (cmd cwd : CStr)
    (argv envp : CStrArray) (hsetup : o.ChildSetupOk) (hexec : o.exec = true) :
    ∃ st : Proc, (TermuxC.createSubprocess_child o s cmd cwd argv envp : Outcome α)
      = .execed cmd (some (untilNull argv)) { st with environ := untilNull envp } := by
  obtain ⟨h1, h2, h3, h4, h5, h6⟩ := hsetup
  have n1 : ¬ o.setsid < 0 := by omega
  have n2 : ¬ o.pts < 0 := by omega
  have n3 : ¬ o.tiocsctty < 0 := by omega
  have n4 : ¬ o.dup2_stdin < 0 := by omega
  have n5 : ¬ o.dup2_stdout < 0 := by omega
  have n6 : ¬ o.dup2_stderr < 0 := by omega
  simp only [TermuxC.createSubprocess_child, n1, n2, n3, n4, n5, n6, hexec, if_true, if_false]
  exact ⟨_, rfl⟩

theorem core_reaches_child (o : Oracle) (s : Proc) (cmd cwd : CStr)
    (argv envp : Option CStrArray) (procId rows cols cw ch : Int)
    (hpty : o.PtyOk) (hfork : o.fork = 0) :
    TermuxCore.create_subprocess o s cmd cwd argv envp procId rows cols cw ch
      = TermuxCore.create_subprocess_child o
          (Sys.ioctl_TIOCSWINSZ o.ptmx (mkWinsize rows cols cw ch) (Sys.openpt o.ptmx s)).2
          o.ptmx cmd cwd argv envp := by
  obtain ⟨h1, h2, h3, h4⟩ := hpty
  obtain ⟨name, hname⟩ := Option.isSome_iff_exists.mp h4
  have h1n : ¬ o.ptmx < 0 := by omega
  simp [TermuxCore.create_subprocess, h1n, h2, h3, hname, hfork]

theorem core_child_execs {α : Type} (o : Oracle) (s : Proc) (ptm : Int) (cmd cwd : CStr)
    (argv envp : Option CStrArray) (hpts : 0 ≤ o.pts) (hexec : o.exec = true) :
    ∃ st : Proc, (TermuxCore.create_subprocess_child o s ptm cmd cwd argv envp : Outcome α)
      = .execed cmd (argv.map untilNull)
          (Sys.chdir o.chdir cwd (TermuxCore.replaceEnvironment envp st)) := by
  have n2 : ¬ o.pts < 0 := by omega
  simp only [TermuxCore.create_subprocess_child, n2, hexec, if_true, if_false]
  exact ⟨_, rfl⟩

theorem chdir_environ (r : Int) (path : CStr) (s : Proc) :
    (Sys.chdir r path s).environ = s.environ := by
  unfold Sys.chdir; split <;> rfl

/-- C2 (amended): when the launch reaches `exec` in the child, the environment of the new image
does not depend on the ambient environment of the launcher and holds only strings of
`env_entries`.  With `termux.c` it is exactly `env_entries`, in order.  With `create_subprocess`
of `termux-core.cpp` it is the result of `putenv` of each entry on an empty environment: exactly
`env_entries` when these are `NAME=value` strings with non-empty, pairwise distinct names (the
empty list included), and empty when `envp` is NULL. -/
theorem child_environment (o : Oracle) (heap : Nat → Nat → Option CStr) (s : Proc)
    (cmd cwd : CStr) (args env_entries : List CStr) (pids : List Int)
    (argv : Option CStrArray) (procId rows cols cw ch : Int) (ambient₁ ambient₂ : List CStr)
    (hpty : o.PtyOk) (hfork : o.fork = 0) (hsetup : o.ChildSetupOk) (hexec : o.exec = true) :
    (TermuxC.Java_com_termux_terminal_JNI_createSubprocess o heap { s with environ := ambient₁ }
        cmd cwd args env_entries pids rows cols cw ch).environ? = some env_entries ∧
    (TermuxC.Java_com_termux_terminal_JNI_createSubprocess o heap { s with environ := ambient₂ }
        cmd cwd args env_entries pids rows cols cw ch).environ? = some env_entries ∧
    (∃ childEnv : List CStr,
      (TermuxCore.create_subprocess o { s with environ := ambient₁ } cmd cwd argv
          (some (env_entries.map some ++ [none])) procId rows cols cw ch).environ?
        = some childEnv ∧
      (TermuxCore.create_subprocess o { s with environ := ambient₂ } cmd cwd argv
          (some (env_entries.map some ++ [none])) procId rows cols cw ch).environ?
        = some childEnv ∧
      (∀ e ∈ childEnv, e ∈ env_entries) ∧
      (DistinctVars env_entries → childEnv = env_entries)) ∧
    (TermuxCore.create_subprocess o { s with environ := ambient₁ } cmd cwd argv none
        procId rows cols cw ch).environ? = some [] ∧
    (TermuxCore.create_subprocess o { s with environ := ambient₂ } cmd cwd argv none
        procId rows cols cw ch).environ? = some [] := by
  have hc : ∀ amb : List CStr,
      (TermuxC.Java_com_termux_terminal_JNI_createSubprocess o heap { s with environ := amb }
        cmd cwd args env_entries pids rows cols cw ch).environ? = some env_entries := by
    intro amb
    rw [termux_c_reaches_child o heap _ cmd cwd args env_entries pids rows cols cw ch hpty hfork]
    obtain ⟨st, hst⟩ := termux_c_child_execs (α := Int × List Int) o
      (Sys.ioctl_TIOCSWINSZ o.ptmx (mkWinsize rows cols cw ch)
        (Sys.openpt o.ptmx { s with environ := amb })).2
      cmd cwd (some cmd :: args.map some ++ [none]) (env_entries.map some ++ [none])
      hsetup hexec
    rw [hst]
    simp [Outcome.environ?, untilNull_map_some]
  have hk : ∀ (amb : List CStr) (envp : Option CStrArray),
      (TermuxCore.create_subprocess o { s with environ := amb } cmd cwd argv envp
        procId rows cols cw ch).environ?
        = some (TermuxCore.replaceEnvironment envp s).environ := by
    intro amb envp
    rw [core_reaches_child o _ cmd cwd argv envp procId rows cols cw ch hpty hfork]
    obtain ⟨st, hst⟩ := core_child_execs (α := Int × Int) o
      (Sys.ioctl_TIOCSWINSZ o.ptmx (mkWinsize rows cols cw ch)
        (Sys.openpt o.ptmx { s with environ := amb })).2
      o.ptmx cmd cwd argv envp hsetup.2.1 hexec
    rw [hst]
    simp only [Outcome.environ?, chdir_environ]
    rw [replaceEnvironment_congr envp st s]
  refine ⟨hc ambient₁, hc ambient₂, ⟨_, hk ambient₁ _, hk ambient₂ _, ?_, ?_⟩, ?_, ?_⟩
  · exact replaceEnvironment_subset env_entries [] s
  · exact replaceEnvironment_distinct env_entries [] s
  · rw [hk]; rfl
  · rw [hk]; rfl

theorem child_environment_witness :
    (TermuxC.Java_com_termux_terminal_JNI_createSubprocess childOracle zeroHeap
        { launcher with environ := ["SECRET=1".toList] } "/bin/env".toList "/".toList []
        ["FOO=bar".toList] [0] 24 80 10 20).environ? = some ["FOO=bar".toList] :=
  (child_environment childOracle zeroHeap launcher "/bin/env".toList "/".toList []
    ["FOO=bar".toList] [0] none 0 24 80 10 20 ["SECRET=1".toList] [] (by decide) (by decide)
    (by decide) (by decide)).1

/-- C2 (counterexample): launched through `termux-core.cpp` with the entries `A=1`, `A=2`, the
command runs with the single entry `A=2`; through `termux.c` it runs with both. -/
theorem child_environment_duplicate_name :
    (TermuxCore.Main.Java_expo_modules_termuxcore_TermuxSession_createSubprocess childOracle
        zeroHeap launcher "/bin/env".toList "/".toList []
        [some "A=1".toList, some "A=2".toList] [0] 24 80 10 20 0).environ?
      = some ["A=2".toList] ∧
    (TermuxCore.create_subprocess childOracle launcher "/bin/env".toList "/".toList none
        (some [some "A=1".toList, some "A=2".toList, none]) 0 24 80 10 20).environ?
      = some ["A=2".toList] ∧
    (TermuxC.Java_com_termux_terminal_JNI_createSubprocess childOracle zeroHeap launcher
        "/bin/env".toList "/".toList [] ["A=1".toList, "A=2".toList] [0] 24 80 10 20).environ?
      = some ["A=1".toList, "A=2".toList] := by
  decide

/-! ## The argument vector -/

theorem copyArray_strings (heap : Nat → Option CStr) (l : List CStr) :
    TermuxCore.copyArray heap (some (l.map some))
      = some (if l = [] then none else some (l.map some ++ [none])) := by
  cases l with
  | nil => simp [TermuxCore.copyArray]
  | cons a l =>
    have hv := vector_without_command heap ((a :: l).map some)
    simp only [List.length_map, List.length_cons] at hv
    have hf := fillChecked_map_some (a :: l) 0 (malloc heap (l.length + 1 + 1))
    simp only [TermuxCore.copyArray, List.length_map, List.length_cons, Option.getD_some, hf, hv]
    simp

/-- The two builders that put the command in slot 0: under an oracle that lets the child reach
`exec`, `termux.c` and the second definition of `termux-core.cpp` run the command with the
vector `[command, args[0], ..., args[n-1]]`, of `n + 1` strings. -/
theorem argv_command_first (o : Oracle) (heap : Nat → Nat → Option CStr) (s : Proc)
    (cmd cwd : CStr) (args env_entries : List CStr) (pids : List Int)
    (rows cols cw ch uninit : Int)
    (hpty : o.PtyOk) (hfork : o.fork = 0) (hsetup : o.ChildSetupOk) (hexec : o.exec = true) :
    (TermuxC.Java_com_termux_terminal_JNI_createSubprocess o heap s cmd cwd args env_entries
        pids rows cols cw ch).argv? = some (some (cmd :: args)) ∧
    (TermuxCore.Main.Java_expo_modules_termuxcore_TermuxSession_createSubprocess o heap s cmd cwd
        (args.map some) (env_entries.map some) pids rows cols cw ch uninit).argv?
      = some (some (cmd :: args)) ∧
    (cmd :: args).length = args.length + 1 := by
  refine ⟨?_, ?_, rfl⟩
  · rw [termux_c_reaches_child o heap _ cmd cwd args env_entries pids rows cols cw ch hpty hfork]
    obtain ⟨st, hst⟩ := termux_c_child_execs (α := Int × List Int) o
      (Sys.ioctl_TIOCSWINSZ o.ptmx (mkWinsize rows cols cw ch) (Sys.openpt o.ptmx s)).2
      cmd cwd (some cmd :: args.map some ++ [none]) (env_entries.map some ++ [none])
      hsetup hexec
    rw [hst]
    have := untilNull_map_some (cmd :: args) []
    simp only [List.map_cons] at this
    simpa [Outcome.argv?] using this
  · have hv := argv_with_command (heap 0) cmd (args.map some)
    have he := vector_without_command (heap 1) (env_entries.map some)
    simp only [List.length_map] at hv he
    simp only [TermuxCore.Main.Java_expo_modules_termuxcore_TermuxSession_createSubprocess,
      List.length_map, hv, he]
    rw [core_reaches_child o _ cmd cwd _ _ uninit rows cols cw ch hpty hfork]
    obtain ⟨st, hst⟩ := core_child_execs (α := Int × Int) o
      (Sys.ioctl_TIOCSWINSZ o.ptmx (mkWinsize rows cols cw ch) (Sys.openpt o.ptmx s)).2
      o.ptmx cmd cwd (some (some cmd :: args.map some ++ [none]))
      (some (env_entries.map some ++ [none])) hsetup.2.1 hexec
    rw [hst]
    have := untilNull_map_some (cmd :: args) []
    simp only [List.map_cons] at this
    simpa [Outcome.andThen, Outcome.argv?] using this

theorem argv_command_first_witness :
    (TermuxC.Java_com_termux_terminal_JNI_createSubprocess childOracle zeroHeap launcher
        "/bin/echo".toList "/".toList ["hello".toList] [] [0] 24 80 10 20).argv?
      = some (some ["/bin/echo".toList, "hello".toList]) :=
  (argv_command_first childOracle zeroHeap launcher "/bin/echo".toList "/".toList
    ["hello".toList] [] [0] 24 80 10 20 0 (by decide) (by decide) (by decide) (by decide)).1

/-- The first definition of `termux-core.cpp` copies `args` alone: under an oracle that lets
the child reach `exec`, the command runs with the vector `[args[0], ..., args[n-1]]`, and with
a NULL vector when `args` is empty. -/
theorem argv_first_definition (o : Oracle) (heap : Nat → Nat → Option CStr) (s : Proc)
    (cmd cwd : CStr) (args env_entries : List CStr) (pids : List Int) (rows cols cw ch : Int)
    (hpty : o.PtyOk) (hfork : o.fork = 0) (hpts : 0 ≤ o.pts) (hexec : o.exec = true) :
    (TermuxCore.Java_expo_modules_termuxcore_TermuxSession_createSubprocess o heap s cmd cwd
        (some (args.map some)) (some (env_entries.map some)) pids rows cols cw ch).argv?
      = some (if args = [] then none else some args) := by
  simp only [TermuxCore.Java_expo_modules_termuxcore_TermuxSession_createSubprocess,
    copyArray_strings]
  rw [core_reaches_child o _ cmd cwd _ _ 0 rows cols cw ch hpty hfork]
  obtain ⟨st, hst⟩ := core_child_execs (α := Int × Int) o
    (Sys.ioctl_TIOCSWINSZ o.ptmx (mkWinsize rows cols cw ch) (Sys.openpt o.ptmx s)).2
    o.ptmx cmd cwd (if args = [] then none else some (args.map some ++ [none]))
    (if env_entries = [] then none else some (env_entries.map some ++ [none])) hpts hexec
  rw [hst]
  by_cases h : args = []
  · simp [Outcome.andThen, Outcome.argv?, h]
  · simp [Outcome.andThen, Outcome.argv?, h, untilNull_map_some]

theorem argv_first_definition_witness :
    (TermuxCore.Java_expo_modules_termuxcore_TermuxSession_createSubprocess childOracle zeroHeap
        launcher "/bin/echo".toList "/".toList (some [some "a".toList]) (some []) [0]
        24 80 10 20).argv? = some (some ["a".toList]) :=
  argv_first_definition childOracle zeroHeap launcher "/bin/echo".toList "/".toList
    ["a".toList] [] [0] 24 80 10 20 (by decide) (by decide) (by decide) (by decide)

/-- C3 (failing input): command `/bin/echo` with `args = ["hello"]`, every call succeeding.  The
first definition of `createSubprocess` in `termux-core.cpp` runs the command with the vector
`["hello"]`, and with a NULL vector when `args` is empty; the second definition and `termux.c`
run it with `["/bin/echo", "hello"]`. -/
theorem argv_first_definition_omits_command :
    (TermuxCore.Java_expo_modules_termuxcore_TermuxSession_createSubprocess childOracle zeroHeap
        launcher "/bin/echo".toList "/".toList (some [some "hello".toList]) (some []) [0]
        24 80 10 20).argv? = some (some ["hello".toList]) ∧
    (TermuxCore.Java_expo_modules_termuxcore_TermuxSession_createSubprocess childOracle zeroHeap
        launcher "/bin/echo".toList "/".toList (some []) (some []) [0]
        24 80 10 20).argv? = some none ∧
    (TermuxCore.Main.Java_expo_modules_termuxcore_TermuxSession_createSubprocess childOracle
        zeroHeap launcher "/bin/echo".toList "/".toList [some "hello".toList] [] [0]
        24 80 10 20 0).argv? = some (some ["/bin/echo".toList, "hello".toList]) ∧
    (TermuxC.Java_com_termux_terminal_JNI_createSubprocess childOracle zeroHeap launcher
        "/bin/echo".toList "/".toList ["hello".toList] [] [0] 24 80 10 20).argv?
      = some (some ["/bin/echo".toList, "hello".toList]) := by
  decide

/-! ## The parent branch -/

/-- What the three entry points hand back after a successful launch (`fork` returned the pid
`p > 0`): `termux.c` and the first definition of `termux-core.cpp` return the PTY master and
store `p` in element 0 of `processIdArray`; the second definition returns the PTY master and
leaves `processIdArray` as it was. -/
theorem launch_result (o : Oracle) (heap : Nat → Nat → Option CStr) (s : Proc)
    (cmd cwd : CStr) (args env_entries : List CStr) (pids : List Int)
    (rows cols cw ch uninit : Int)
    (hpty : o.PtyOk) (hfork : 0 < o.fork) (hcrit : o.arrayCritical = true) :
    (TermuxC.Java_com_termux_terminal_JNI_createSubprocess o heap s cmd cwd args env_entries
        pids rows cols cw ch).ret? = some (o.ptmx, pids.set 0 o.fork) ∧
    (TermuxCore.Java_expo_modules_termuxcore_TermuxSession_createSubprocess o heap s cmd cwd
        (some (args.map some)) (some (env_entries.map some)) pids rows cols cw ch).ret?
      = some (o.ptmx, pids.set 0 o.fork) ∧
    (TermuxCore.Main.Java_expo_modules_termuxcore_TermuxSession_createSubprocess o heap s cmd cwd
        (args.map some) (env_entries.map some) pids rows cols cw ch uninit).ret?
      = some (o.ptmx, pids) := by
  obtain ⟨h1, h2, h3, h4⟩ := hpty
  obtain ⟨name, hname⟩ := Option.isSome_iff_exists.mp h4
  have h1n : ¬ o.ptmx < 0 := by omega
  have hf1 : ¬ o.fork < 0 := by omega
  have hf2 : ¬ o.fork = 0 := by omega
  have hk : ∀ (t : Proc) (argv envp : Option CStrArray) (procId : Int),
      TermuxCore.create_subprocess o t cmd cwd argv envp procId rows cols cw ch
        = .returned (o.ptmx, o.fork)
            (Sys.ioctl_TIOCSWINSZ o.ptmx (mkWinsize rows cols cw ch) (Sys.openpt o.ptmx t)).2 := by
    intro t argv envp procId
    simp [TermuxCore.create_subprocess, h1n, h2, h3, hname, hf1, hfork]
  refine ⟨?_, ?_, ?_⟩
  · simp [TermuxC.Java_com_termux_terminal_JNI_createSubprocess, h1n, h2, h3, hname, hf1, hf2,
      Outcome.ret?]
  · simp [TermuxCore.Java_expo_modules_termuxcore_TermuxSession_createSubprocess,
      copyArray_strings, hk, Outcome.andThen, hcrit, Outcome.ret?]
  · simp [TermuxCore.Main.Java_expo_modules_termuxcore_TermuxSession_createSubprocess, hk,
      Outcome.andThen, Outcome.ret?]

theorem launch_result_witness :
    (TermuxC.Java_com_termux_terminal_JNI_createSubprocess parentOracle zeroHeap launcher
        "/bin/sh".toList "/".toList [] [] [0] 24 80 10 20).ret? = some (5, [4242]) :=
  (launch_result parentOracle zeroHeap launcher "/bin/sh".toList "/".toList [] [] [0]
    24 80 10 20 0 (by decide) (by decide) (by decide)).1

/-- C4 (failing input): a launch through the second definition of `createSubprocess` in
`termux-core.cpp` with `processIdArray = [0]`, PTY master 5 and child pid 4242 returns 5 and
leaves `processIdArray = [0]`: the pid is not handed to the caller.  `termux.c` and the first
definition store 4242. -/
theorem second_definition_drops_pid :
    (TermuxCore.Main.Java_expo_modules_termuxcore_TermuxSession_createSubprocess parentOracle
        zeroHeap launcher "/bin/sh".toList "/".toList [] [] [0] 24 80 10 20 0).ret?
      = some (5, [0]) ∧
    (TermuxCore.Java_expo_modules_termuxcore_TermuxSession_createSubprocess parentOracle
        zeroHeap launcher "/bin/sh".toList "/".toList (some []) (some []) [0] 24 80 10 20).ret?
      = some (5, [4242]) ∧
    (TermuxC.Java_com_termux_terminal_JNI_createSubprocess parentOracle zeroHeap launcher
        "/bin/sh".toList "/".toList [] [] [0] 24 80 10 20).ret? = some (5, [4242]) := by
  decide

/-! ## Failure of `fork` -/

theorem TIOCSWINSZ_fds (fd : Int) (ws : Winsize) (s : Proc) :
    (Sys.ioctl_TIOCSWINSZ fd ws s).2.fds = s.fds := by
  unfold Sys.ioctl_TIOCSWINSZ; split <;> rfl

theorem close_fds (fd : Int) (s : Proc) :
    (Sys.close fd s).2.fds = s.fds.filter (fun x => x ≠ fd) := by
  unfold Sys.close
  split
  · rfl
  · rename_i h
    simp only
    rw [List.filter_eq_self.mpr]
    intro x hx
    have hne : x ≠ fd := fun e => h (e ▸ hx)
    simpa using hne

/-- Descriptors after a failed `fork`, with a fresh PTY master `o.ptmx`: `termux.c` closes the
master, so the open descriptors are those from before the call; `create_subprocess` of
`termux-core.cpp` returns with the master still open.  Both raise "Fork failed" and return
-1. -/
theorem fork_failure_descriptors (o : Oracle) (heap : Nat → Nat → Option CStr) (s : Proc)
    (cmd cwd : CStr) (args env_entries : List CStr) (pids : List Int)
    (argv envp : Option CStrArray) (procId rows cols cw ch : Int)
    (hpty : o.PtyOk) (hfork : o.fork < 0) (hfresh : o.ptmx ∉ s.fds) :
    (TermuxC.Java_com_termux_terminal_JNI_createSubprocess o heap s cmd cwd args env_entries
        pids rows cols cw ch).ret? = some (-1, pids) ∧
    (TermuxC.Java_com_termux_terminal_JNI_createSubprocess o heap s cmd cwd args env_entries
        pids rows cols cw ch).state.exception = some "Fork failed" ∧
    (TermuxC.Java_com_termux_terminal_JNI_createSubprocess o heap s cmd cwd args env_entries
        pids rows cols cw ch).state.fds = s.fds ∧
    (TermuxCore.create_subprocess o s cmd cwd argv envp procId rows cols cw ch).ret?
      = some (-1, procId) ∧
    (TermuxCore.create_subprocess o s cmd cwd argv envp procId rows cols cw ch).state.exception
      = some "Fork failed" ∧
    (TermuxCore.create_subprocess o s cmd cwd argv envp procId rows cols cw ch).state.fds
      = o.ptmx :: s.fds := by
  obtain ⟨h1, h2, h3, h4⟩ := hpty
  obtain ⟨name, hname⟩ := Option.isSome_iff_exists.mp h4
  have h1n : ¬ o.ptmx < 0 := by omega
  have hfilter : (o.ptmx :: s.fds).filter (fun x => x ≠ o.ptmx) = s.fds := by
    rw [List.filter_cons_of_neg (by simp), List.filter_eq_self.mpr]
    intro x hx
    have hne : x ≠ o.ptmx := fun e => hfresh (e ▸ hx)
    simpa using hne
  have hopen : (Sys.openpt o.ptmx s).fds = o.ptmx :: s.fds := by
    simp [Sys.openpt, h1n]
  refine ⟨?_, ?_, ?_, ?_, ?_, ?_⟩
  · simp [TermuxC.Java_com_termux_terminal_JNI_createSubprocess, h1n, h2, h3, hname, hfork,
      Outcome.ret?, throw_runtime_exception]
  · simp [TermuxC.Java_com_termux_terminal_JNI_createSubprocess, h1n, h2, h3, hname, hfork,
      Outcome.state, throw_runtime_exception]
  · simp only [TermuxC.Java_com_termux_terminal_JNI_createSubprocess, h1n, h2, h3, hname, hfork,
      Outcome.state, throw_runtime_exception, if_true, if_false, ne_eq, not_true_eq_false,
      or_self]
    rw [close_fds]
    simp only [LOGE, TIOCSWINSZ_fds, hopen]
    exact hfilter
  · simp [TermuxCore.create_subprocess, h1n, h2, h3, hname, hfork, Outcome.ret?,
      throw_runtime_exception]
  · simp [TermuxCore.create_subprocess, h1n, h2, h3, hname, hfork, Outcome.state,
      throw_runtime_exception]
  · simp only [TermuxCore.create_subprocess, h1n, h2, h3, hname, hfork, Outcome.state,
      throw_runtime_exception, if_true, if_false, ne_eq, not_true_eq_false, or_self,
      reduceCtorEq]
    simp only [LOGE, TIOCSWINSZ_fds, hopen]

theorem fork_failure_descriptors_witness :
    (TermuxC.Java_com_termux_terminal_JNI_createSubprocess forkFailsOracle zeroHeap launcher
        "/bin/sh".toList "/".toList [] [] [0] 24 80 10 20).state.fds = [0, 1, 2] :=
  (fork_failure_descriptors forkFailsOracle zeroHeap launcher "/bin/sh".toList "/".toList [] []
    [0] none none 0 24 80 10 20 (by decide) (by decide) (by decide)).2.2.1

/-- C6 (failing input): the launcher has descriptors 0, 1, 2 open, the PTY master opens on 5 and
`fork` fails.  `create_subprocess` of `termux-core.cpp` raises "Fork failed" and returns -1 with
descriptor 5 still open; `termux.c` closes it first. -/
theorem fork_failure_leaks_master :
    (TermuxCore.create_subprocess forkFailsOracle launcher "/bin/sh".toList "/".toList none none
        0 24 80 10 20).ret? = some (-1, 0) ∧
    (TermuxCore.create_subprocess forkFailsOracle launcher "/bin/sh".toList "/".toList none none
        0 24 80 10 20).state.exception = some "Fork failed" ∧
    (TermuxCore.create_subprocess forkFailsOracle launcher "/bin/sh".toList "/".toList none none
        0 24 80 10 20).state.fds = [5, 0, 1, 2] ∧
    launcher.fds = [0, 1, 2] ∧
    (TermuxC.Java_com_termux_terminal_JNI_createSubprocess forkFailsOracle zeroHeap launcher
        "/bin/sh".toList "/".toList [] [] [0] 24 80 10 20).state.fds = [0, 1, 2] := by
  decide

/-! ## Failures in the child -/

/-- Child branch of `termux.c`: when a set-up call (`setsid`, opening the slave, `TIOCSCTTY`, a
`dup2`) or `execve` fails, the child ends with `exit(1)`; it does not reach `exec` and does not
return. -/
theorem termux_c_child_failure {α : Type} (o : Oracle) (s : Proc) (cmd cwd : CStr)
    (argv envp : CStrArray) (hfail : ¬ o.ChildSetupOk ∨ o.exec = false) :
    (TermuxC.createSubprocess_child o s cmd cwd argv envp : Outcome α).exitCode? = some 1 := by
  simp only [TermuxC.createSubprocess_child]
  split_ifs with h1 h2 h3 h4 h5 h6 h7 <;> try rfl
  all_goals
    exfalso
    rcases hfail with hf | hf
    · exact hf ⟨by omega, by omega, by omega, by omega, by omega, by omega⟩
    · simp [hf] at h7

theorem termux_c_child_failure_witness :
    (TermuxC.createSubprocess_child setupFailsOracle launcher "/bin/sh".toList "/".toList
      [some "/bin/sh".toList, none] [none] : Outcome (Int × List Int)).exitCode? = some 1 :=
  termux_c_child_failure setupFailsOracle launcher "/bin/sh".toList "/".toList
    [some "/bin/sh".toList, none] [none] (Or.inl (by decide))

/-- Child branch of `termux-core.cpp`: a failure to open the slave ends the child with
`exit(-1)`, a failure of `execvp` with `_exit(1)`. -/
theorem core_child_failure {α : Type} (o : Oracle) (s : Proc) (ptm : Int) (cmd cwd : CStr)
    (argv envp : Option CStrArray) :
    (o.pts < 0 →
      (TermuxCore.create_subprocess_child o s ptm cmd cwd argv envp : Outcome α).exitCode?
        = some (-1)) ∧
    (0 ≤ o.pts → o.exec = false →
      (TermuxCore.create_subprocess_child o s ptm cmd cwd argv envp : Outcome α).exitCode?
        = some 1) := by
  constructor
  · intro h
    simp [TermuxCore.create_subprocess_child, h, Outcome.exitCode?]
  · intro h he
    have h' : ¬ o.pts < 0 := by omega
    simp [TermuxCore.create_subprocess_child, h', he, Outcome.exitCode?]

theorem core_child_failure_witness :
    (TermuxCore.create_subprocess_child { childOracle with pts := -1 } launcher 5
      "/bin/sh".toList "/".toList none none : Outcome (Int × Int)).exitCode? = some (-1) :=
  (core_child_failure { childOracle with pts := -1 } launcher 5 "/bin/sh".toList "/".toList
    none none).1 (by decide)

/-- The statuses `exit(1)` and `exit(-1)` are reported by both `waitFor` functions as 1 and
255. -/
theorem waitFor_exit_failure (pid uninit : Int) (hpid : 0 < pid) :
    TermuxC.Java_com_termux_terminal_JNI_waitFor
      (.reaped pid (exitTermination 1).status) uninit = 1 ∧
    TermuxCore.Java_expo_modules_termuxcore_TermuxSession_waitFor
      (.reaped pid (exitTermination 1).status) uninit = 1 ∧
    TermuxC.Java_com_termux_terminal_JNI_waitFor
      (.reaped pid (exitTermination (-1)).status) uninit = 255 ∧
    TermuxCore.Java_expo_modules_termuxcore_TermuxSession_waitFor
      (.reaped pid (exitTermination (-1)).status) uninit = 255 := by
  have e1 : exitTermination 1 = .exited 1 := by decide
  have e2 : exitTermination (-1) = .exited 255 := by decide
  have h1 : ¬ pid < 0 := by omega
  obtain ⟨ha, hb⟩ := status_exited_facts 1 (by decide)
  obtain ⟨hc, hd⟩ := status_exited_facts 255 (by decide)
  rw [e1, e2]
  simp [TermuxC.Java_com_termux_terminal_JNI_waitFor,
    TermuxCore.Java_expo_modules_termuxcore_TermuxSession_waitFor, WaitpidResult.store,
    WaitpidResult.ret, h1, ha, hb, hc, hd]

theorem waitFor_exit_failure_witness :
    TermuxC.Java_com_termux_terminal_JNI_waitFor
      (.reaped 4242 (exitTermination 1).status) 0 = 1 :=
  (waitFor_exit_failure 4242 0 (by decide)).1

/-- C7 (failing input): in the child, `dup2(pts, 0)` fails (returns -1) and everything else
succeeds; or `setsid` alone fails; or `setsid` and all three `dup2` calls fail.  Each time
`create_subprocess` of `termux-core.cpp` goes on and runs the command, where the child branch
of `termux.c` ends with `exit(1)` on the same answers. -/
theorem core_child_ignores_setup_failure :
    ¬ dup2FailsOracle.ChildSetupOk ∧ ¬ setsidFailsOracle.ChildSetupOk ∧
    ¬ setupFailsOracle.ChildSetupOk ∧
    (TermuxCore.create_subprocess dup2FailsOracle launcher "/bin/sh".toList "/".toList
        (some [some "/bin/sh".toList, none]) (some [none]) 0 24 80 10 20).argv?
      = some (some ["/bin/sh".toList]) ∧
    (TermuxCore.create_subprocess dup2FailsOracle launcher "/bin/sh".toList "/".toList
        (some [some "/bin/sh".toList, none]) (some [none]) 0 24 80 10 20).exitCode? = none ∧
    (TermuxCore.create_subprocess setsidFailsOracle launcher "/bin/sh".toList "/".toList
        (some [some "/bin/sh".toList, none]) (some [none]) 0 24 80 10 20).argv?
      = some (some ["/bin/sh".toList]) ∧
    (TermuxCore.create_subprocess setupFailsOracle launcher "/bin/sh".toList "/".toList
        (some [some "/bin/sh".toList, none]) (some [none]) 0 24 80 10 20).argv?
      = some (some ["/bin/sh".toList]) ∧
    (TermuxC.Java_com_termux_terminal_JNI_createSubprocess dup2FailsOracle zeroHeap launcher
        "/bin/sh".toList "/".toList [] [] [0] 24 80 10 20).exitCode? = some 1 ∧
    (TermuxC.Java_com_termux_terminal_JNI_createSubprocess setsidFailsOracle zeroHeap launcher
        "/bin/sh".toList "/".toList [] [] [0] 24 80 10 20).exitCode? = some 1 ∧
    (TermuxC.Java_com_termux_terminal_JNI_createSubprocess setupFailsOracle zeroHeap launcher
        "/bin/sh".toList "/".toList [] [] [0] 24 80 10 20).exitCode? = some 1 := by
  decide

/-! ## The descriptor scan -/

theorem digitChar_facts (k : Nat) (hk : k < 10) :
    (Nat.digitChar k).isDigit = true ∧ ((Nat.digitChar k).toNat : Int) - 48 = (k : Int) ∧
    isspace (Nat.digitChar k) = false ∧ Nat.digitChar k ≠ '-' ∧ Nat.digitChar k ≠ '+' := by
  interval_cases k <;> decide

theorem strtolDigits_toDigitsCore (fuel n : Nat) (acc : List Char) (h : n < fuel) :
    strtolDigits 0 (Nat.toDigitsCore 10 fuel n acc) = strtolDigits (n : Int) acc := by
  induction fuel generalizing n acc with
  | zero => omega
  | succ fuel ih =>
    obtain ⟨hd, hv, -, -, -⟩ := digitChar_facts (n % 10) (Nat.mod_lt _ (by decide))
    have hstep : strtolDigits ((n / 10 : Nat) : Int) (Nat.digitChar (n % 10) :: acc)
        = strtolDigits (n : Int) acc := by
      simp only [strtolDigits, hd, if_true, hv]
      congr 1
      omega
    simp only [Nat.toDigitsCore]
    split
    · rename_i h0
      rw [← hstep, h0]
      rfl
    · rename_i h0
      rw [ih (n / 10) _ (by omega), hstep]

theorem toDigitsCore_head (fuel n : Nat) (acc : List Char) (h : n < fuel) :
    ∃ k rest, k < 10 ∧ Nat.toDigitsCore 10 fuel n acc = Nat.digitChar k :: rest := by
  induction fuel generalizing n acc with
  | zero => omega
  | succ fuel ih =>
    simp only [Nat.toDigitsCore]
    split
    · exact ⟨n % 10, acc, Nat.mod_lt _ (by decide), rfl⟩
    · exact ih (n / 10) _ (by omega)

/-- The function `atoi` reads the name of a descriptor in `/proc/self/fd` back as the
descriptor. -/
theorem atoi_fdName (fd : Int) (h0 : 0 ≤ fd) (h1 : fd < 2147483648) : atoi (fdName fd) = fd := by
  obtain ⟨k, rest, hk, hhead⟩ := toDigitsCore_head (fd.toNat + 1) fd.toNat [] (by omega)
  obtain ⟨-, -, hsp, hminus, hplus⟩ := digitChar_facts k hk
  have hval := strtolDigits_toDigitsCore (fd.toNat + 1) fd.toNat [] (by omega)
  have hname : fdName fd = Nat.digitChar k :: rest := hhead
  have hval2 : strtolDigits 0 (Nat.digitChar k :: rest) = fd := by
    rw [← hname]
    simp only [fdName, Nat.toDigits, hval, strtolDigits]
    omega
  simp only [atoi, hname, List.dropWhile_cons, hsp, List.head?_cons, Option.some.injEq, hminus,
    hplus, or_self, if_false, hval2, wrap32]
  simp only [Bool.false_eq_true, if_false, List.head?_cons, Option.some.injEq, hminus, hplus,
    or_self, hval2]
  omega

theorem atoi_dot : atoi ".".toList = 0 ∧ atoi "..".toList = 0 := by decide

theorem scan_step_mem (dfd : Int) (s : Proc) (e : CStr) (fd : Int) :
    fd ∈ (if atoi e > 2 ∧ atoi e ≠ dfd then (Sys.close (atoi e) s).2 else s).fds
      ↔ fd ∈ s.fds ∧ ¬ (atoi e = fd ∧ 2 < fd ∧ fd ≠ dfd) := by
  split
  · rename_i h
    rw [close_fds]
    simp only [List.mem_filter, decide_eq_true_eq, ne_eq]
    constructor
    · rintro ⟨hm, hne⟩
      exact ⟨hm, fun hc => hne hc.1.symm⟩
    · rintro ⟨hm, hn⟩
      refine ⟨hm, fun hc => hn ⟨hc.symm, ?_, ?_⟩⟩
      · rw [hc]; exact h.1
      · rw [hc]; exact h.2
  · rename_i h
    constructor
    · intro hm
      refine ⟨hm, fun hc => h ?_⟩
      rw [hc.1]
      exact ⟨hc.2.1, hc.2.2⟩
    · exact fun hm => hm.1

theorem scan_loop_mem (dfd : Int) (entries : List CStr) (s : Proc) (fd : Int) :
    fd ∈ (entries.foldl
        (fun s d_name =>
          if atoi d_name > 2 ∧ atoi d_name ≠ dfd then (Sys.close (atoi d_name) s).2 else s)
        s).fds
      ↔ fd ∈ s.fds ∧ ∀ e ∈ entries, ¬ (atoi e = fd ∧ 2 < fd ∧ fd ≠ dfd) := by
  induction entries generalizing s with
  | nil => simp
  | cons e rest ih =>
    rw [List.foldl_cons, ih, scan_step_mem]
    simp only [List.mem_cons, forall_eq_or_imp]
    tauto

/-- The scan block by itself: from a state in which the directory descriptor is fresh and every
open descriptor is listed under its decimal name, it leaves open exactly the descriptors 0, 1
and 2 that were open. -/
theorem closeInheritedFds_mem (o : Oracle) (s : Proc) (dfd : Int)
    (hdir : o.opendir = some dfd) (hfresh : dfd ∉ s.fds)
    (hlist : ∀ fd ∈ dfd :: s.fds, fdName fd ∈ o.dirEntries)
    (hrange : ∀ fd ∈ s.fds, fd < 2147483648) (fd : Int) :
    fd ∈ (TermuxCore.closeInheritedFds o s).fds ↔ fd ∈ s.fds ∧ fd ≤ 2 := by
  simp only [TermuxCore.closeInheritedFds, hdir]
  rw [close_fds]
  simp only [List.mem_filter, decide_eq_true_eq, ne_eq]
  rw [scan_loop_mem]
  have hopen : fd ∈ (Sys.opened dfd s).fds ∧ ¬ fd = dfd ↔ fd ∈ s.fds := by
    unfold Sys.opened
    split
    · exact ⟨fun h => h.1, fun h => ⟨h, fun e => hfresh (e ▸ h)⟩⟩
    · simp only [List.mem_cons]
      exact ⟨fun h => h.1.resolve_left h.2, fun h => ⟨Or.inr h, fun e => hfresh (e ▸ h)⟩⟩
  constructor
  · rintro ⟨⟨hm, hall⟩, hne⟩
    have hs : fd ∈ s.fds := hopen.mp ⟨hm, hne⟩
    refine ⟨hs, ?_⟩
    by_contra hgt
    have h2 : 2 < fd := by omega
    have hat := atoi_fdName fd (by omega) (hrange fd hs)
    exact hall (fdName fd) (hlist fd (List.mem_cons_of_mem _ hs)) ⟨hat, h2, hne⟩
  · rintro ⟨hs, hle⟩
    obtain ⟨hm, hne⟩ := hopen.mpr hs
    exact ⟨⟨hm, fun e _ hc => by omega⟩, hne⟩

theorem putenv_fds (str : CStr) (s : Proc) : (Sys.putenv str s).2.fds = s.fds := by
  unfold Sys.putenv
  simp only
  split
  · rfl
  · split <;> rfl

theorem replaceEnvironment_fds (envp : Option CStrArray) (s : Proc) :
    (TermuxCore.replaceEnvironment envp s).fds = s.fds := by
  have hfold : ∀ (l : List CStr) (t : Proc),
      (l.foldl (fun s str => (Sys.putenv str s).2) t).fds = t.fds := by
    intro l
    induction l with
    | nil => intro t; rfl
    | cons e rest ih => intro t; rw [List.foldl_cons, ih, putenv_fds]
  unfold TermuxCore.replaceEnvironment
  cases envp with
  | none => rfl
  | some envp => simp only [hfold]; rfl

theorem chdir_fds (r : Int) (path : CStr) (s : Proc) : (Sys.chdir r path s).fds = s.fds := by
  unfold Sys.chdir; split <;> rfl

theorem core_child_state_fds {α : Type} (o : Oracle) (s : Proc) (ptm : Int) (cmd cwd : CStr)
    (argv envp : Option CStrArray) (hpts : 0 ≤ o.pts) :
    (TermuxCore.create_subprocess_child o s ptm cmd cwd argv envp : Outcome α).state.fds
      = (TermuxCore.closeInheritedFds o (TermuxCore.beforeScan o ptm s)).fds := by
  have n2 : ¬ o.pts < 0 := by omega
  simp only [TermuxCore.create_subprocess_child, n2, if_false, TermuxCore.beforeScan]
  split <;> simp only [Outcome.state, chdir_fds, replaceEnvironment_fds]

/-- C10: in the child of `create_subprocess`, when the slave opens, `opendir("/proc/self/fd")`
succeeds on a fresh descriptor and `readdir` lists every open descriptor under its decimal name
(whatever else it lists, such as `.` and `..`, which `atoi` maps to 0), then after the scan, the `closedir` and the
steps up to `exec` the open descriptors are exactly the descriptors 0, 1 and 2 that were open
before the scan: the slave descriptor (when above 2), the directory descriptor and every other
descriptor above 2 are closed, and the command, when `exec` succeeds, runs in that state. -/
theorem scan_closes_above_stderr (o : Oracle) (s : Proc) (ptm : Int) (cmd cwd : CStr)
    (argv envp : Option CStrArray) (dfd : Int)
    (hpts : 0 ≤ o.pts) (hdir : o.opendir = some dfd)
    (hfresh : dfd ∉ (TermuxCore.beforeScan o ptm s).fds)
    (hlist : ∀ fd ∈ dfd :: (TermuxCore.beforeScan o ptm s).fds, fdName fd ∈ o.dirEntries)
    (hrange : ∀ fd ∈ (TermuxCore.beforeScan o ptm s).fds, fd < 2147483648) :
    (∀ fd : Int,
      fd ∈ (TermuxCore.create_subprocess_child o s ptm cmd cwd argv envp :
              Outcome (Int × Int)).state.fds
        ↔ fd ∈ (TermuxCore.beforeScan o ptm s).fds ∧ fd ≤ 2) ∧
    o.pts ∈ (TermuxCore.beforeScan o ptm s).fds ∧
    (2 < o.pts → o.pts ∉ (TermuxCore.create_subprocess_child o s ptm cmd cwd argv envp :
              Outcome (Int × Int)).state.fds) ∧
    dfd ∉ (TermuxCore.create_subprocess_child o s ptm cmd cwd argv envp :
              Outcome (Int × Int)).state.fds ∧
    (o.exec = true →
      (TermuxCore.create_subprocess_child o s ptm cmd cwd argv envp :
              Outcome (Int × Int)).argv? = some (argv.map untilNull)) ∧
    atoi ".".toList = 0 ∧ atoi "..".toList = 0 := by
  have hiff : ∀ fd : Int,
      fd ∈ (TermuxCore.create_subprocess_child o s ptm cmd cwd argv envp :
              Outcome (Int × Int)).state.fds
        ↔ fd ∈ (TermuxCore.beforeScan o ptm s).fds ∧ fd ≤ 2 := by
    intro fd
    rw [core_child_state_fds o s ptm cmd cwd argv envp hpts]
    exact closeInheritedFds_mem o _ dfd hdir hfresh hlist hrange fd
  have hmem : o.pts ∈ (TermuxCore.beforeScan o ptm s).fds := by
    have n2 : ¬ o.pts < 0 := by omega
    have hdup : ∀ (r newfd : Int) (t : Proc), o.pts ∈ t.fds → o.pts ∈ (Sys.dup2 r newfd t).fds := by
      intro r newfd t ht
      unfold Sys.dup2
      split
      · exact ht
      · split
        · exact ht
        · exact List.mem_cons_of_mem _ ht
    unfold TermuxCore.beforeScan
    refine hdup _ _ _ (hdup _ _ _ (hdup _ _ _ ?_))
    simp [Sys.opened, n2]
  refine ⟨hiff, hmem, ?_, ?_, ?_, by decide, by decide⟩
  · intro h2 hin
    have := ((hiff o.pts).mp hin).2
    omega
  · intro hin
    exact hfresh ((hiff dfd).mp hin).1
  · intro hexec
    obtain ⟨st, hst⟩ := core_child_execs (α := Int × Int) o s ptm cmd cwd argv envp hpts hexec
    rw [hst]
    rfl

theorem scan_closes_above_stderr_witness :
    (0 : Int) ≤ scanOracle.pts ∧ scanOracle.opendir = some 7 ∧
    (TermuxCore.beforeScan scanOracle 5 forkedChild).fds = [6, 0, 1, 2, 3, 4] ∧
    (TermuxCore.create_subprocess_child scanOracle forkedChild 5 "/bin/sh".toList
        "/".toList none none : Outcome (Int × Int)).state.fds = [0, 1, 2] ∧
    (∀ fd : Int,
      fd ∈ (TermuxCore.create_subprocess_child scanOracle forkedChild 5 "/bin/sh".toList
              "/".toList none none : Outcome (Int × Int)).state.fds
        ↔ fd ∈ (TermuxCore.beforeScan scanOracle 5 forkedChild).fds ∧ fd ≤ 2) :=
  ⟨by decide, by decide, by decide, by decide,
    (scan_closes_above_stderr scanOracle forkedChild 5 "/bin/sh".toList "/".toList none none 7
      (by decide) (by decide) (by decide) (by decide) (by decide)).1⟩

end Termux
